import Mathlib

/-!
# BLE peripheral attribute layer: UUID codec, table builder, access dispatcher,
connection lifecycle, notification and initialisation

A shallow embedding of `BleCharacteristic.cpp`, `BleService.cpp` and
`BleAdvertiser.cpp`, followed by theorems about the embedded functions.

Conventions of the embedding:
* C++ strings are lists of characters, compared through their code points;
* `uint8_t`/`uint16_t` values are natural numbers, `int`/`esp_err_t` are integers;
* a by-reference out-parameter is an argument that is handed back in the result;
* a call that does not return (failed `ESP_ERROR_CHECK`, uncaught exception) is a
  constructor of `Ret`;
* answers of the host stack and of the allocator are fields of `Env`, `HostStack` and
  `InitStack`.
-/

set_option linter.unusedVariables false

namespace Ble

/-! ## Status codes and control flow -/

/-- The value `ESP_OK` of `esp_err_t`. -/
def ESP_OK : Int := 0
/-- The value `ESP_FAIL` of `esp_err_t`. -/
def ESP_FAIL : Int := -1
/-- The value `ESP_ERR_NO_MEM` of `esp_err_t`. -/
def ESP_ERR_NO_MEM : Int := 0x101
/-- The value `ESP_ERR_INVALID_ARG` of `esp_err_t`. -/
def ESP_ERR_INVALID_ARG : Int := 0x102

/-- The UUID type tag `BLE_UUID_TYPE_128`. -/
def BLE_UUID_TYPE_128 : Nat := 128

/-- C++ exceptions that the embedded code can raise. -/
inductive Exc where
  | invalid_argument
  | out_of_range
  | bad_function_call
  deriving DecidableEq, Repr

/-- How a call ends: it returns a value, `ESP_ERROR_CHECK` aborts the program with
the offending code, or an exception leaves the function. -/
inductive Ret (α : Type) where
  | ok (a : α)
  | abort (code : Int)
  | thrown (e : Exc)
  deriving DecidableEq, Repr

/-! ## `std::stoi(str, nullptr, 16)` -/

/-- The C locale `isspace`: space, and the controls from tab to carriage return. -/
def isSpace (c : Char) : Bool :=
  c.toNat = 32 || (9 ≤ c.toNat && c.toNat ≤ 13)

/-- Value of a hexadecimal digit, `none` for any other character. -/
def hexDigit (c : Char) : Option Nat :=
  if 48 ≤ c.toNat ∧ c.toNat ≤ 57 then some (c.toNat - 48)
  else if 97 ≤ c.toNat ∧ c.toNat ≤ 102 then some (c.toNat - 87)
  else if 65 ≤ c.toNat ∧ c.toNat ≤ 70 then some (c.toNat - 55)
  else none

/-- Whether the character is one of `0-9`, `a-f`, `A-F`. -/
def isHex (c : Char) : Bool := (hexDigit c).isSome

/-- Sign accepted by `strtol`: the flag says whether it was a minus. -/
def takeSign (s : List Char) : Bool × List Char :=
  match s with
  | c :: r => if c.toNat = 45 then (true, r) else if c.toNat = 43 then (false, r) else (false, s)
  | [] => (false, s)

/-- Optional `0x`/`0X` of base 16, consumed only when a hexadecimal digit follows
(the subject sequence of ISO C `strtol`). -/
def takePrefix (s : List Char) : List Char :=
  match s with
  | z :: x :: d :: r =>
    if z.toNat = 48 ∧ (x.toNat = 120 ∨ x.toNat = 88) ∧ isHex d then d :: r else s
  | _ => s

/-- `std::stoi(str, nullptr, 16)`: leading white space, an optional sign, an optional
`0x`, then the longest run of hexadecimal digits; what follows the run is ignored.
No digit gives `invalid_argument`, a value outside `int` gives `out_of_range`. -/
def stoi16 (str : List Char) : Except Exc Int :=
  let s1 := str.dropWhile isSpace
  let (neg, s2) := takeSign s1
  let s3 := takePrefix s2
  let ds := s3.takeWhile isHex
  if ds = [] then Except.error Exc.invalid_argument
  else
    let v : Nat := ds.foldl (fun a c => 16 * a + (hexDigit c).getD 0) 0
    let n : Int := if neg then -(v : Int) else (v : Int)
    if n < -2147483648 ∨ n > 2147483647 then Except.error Exc.out_of_range
    else Except.ok n

/-! ## UUID codec (`BleCharacteristic.cpp`) -/

/-- The `ble_uuid_any_t` out-parameter: its type tag and the 16 bytes of `u128.value`. -/
structure ble_uuid_any_t where
  type : Nat
  value : List Nat
  size : value.length = 16

/-- Assignment `result.u128.value[i] = val`. -/
def ble_uuid_any_t.setValue (u : ble_uuid_any_t) (i val : Nat) : ble_uuid_any_t :=
  { u with value := u.value.set i val, size := by simp [u.size] }

/-- Assignment of `result.u.type` (which aliases `result.u128.u.type`). -/
def ble_uuid_any_t.setType (u : ble_uuid_any_t) (t : Nat) : ble_uuid_any_t :=
  { u with type := t }

/-- `BleCharacteristic::hexStringToUint8`: the returned code and the out-parameter. -/
def hexStringToUint8 (hexStr : List Char) (result : Nat) : Ret (Int × Nat) :=
  if hexStr.length ≠ 2 then Ret.ok (ESP_ERR_INVALID_ARG, result)
  else
    match stoi16 hexStr with
    | Except.error e => Ret.thrown e
    | Except.ok value =>
      if value < 0 ∨ value > 255 then Ret.ok (ESP_ERR_INVALID_ARG, result)
      else Ret.ok (ESP_OK, value.toNat % 256)

/-- `uuid.erase(remove(uuid.begin(), uuid.end(), '-'), uuid.end())`. -/
def removeDashes (uuid : List Char) : List Char :=
  uuid.filter (fun c => c.toNat ≠ 45)

/-- The loop `for (size_t i = 0; i < uuid.size(); i += 2)` of `uuidStringToUuid`,
entered at index `i`. The local `val` is uninitialised before the call; it is read
only after `hexStringToUint8` has set it. -/
def uuidLoop (uuid : List Char) (i : Nat) (result : ble_uuid_any_t) : Ret ble_uuid_any_t :=
  if i < uuid.length then
    match hexStringToUint8 ((uuid.drop i).take 2) 0 with
    | Ret.ok (code, val) =>
      if code ≠ ESP_OK then Ret.abort code
      else uuidLoop uuid (i + 2) (result.setValue (15 - i / 2) val)
    | Ret.abort code => Ret.abort code
    | Ret.thrown e => Ret.thrown e
  else Ret.ok result
termination_by uuid.length - i

/-- `BleCharacteristic::uuidStringToUuid`: the returned code and the out-parameter. -/
def uuidStringToUuid (uuid : String) (result : ble_uuid_any_t) : Ret (Int × ble_uuid_any_t) :=
  let stripped := removeDashes uuid.toList
  if stripped.length = 32 then
    match uuidLoop stripped 0 (result.setType BLE_UUID_TYPE_128) with
    | Ret.ok r => Ret.ok (ESP_OK, r)
    | Ret.abort code => Ret.abort code
    | Ret.thrown e => Ret.thrown e
  else if stripped.length = 8 then Ret.ok (ESP_FAIL, result)
  else if stripped.length = 4 then Ret.ok (ESP_FAIL, result)
  else Ret.ok (ESP_FAIL, result)

/-- A `ble_uuid_any_t` whose storage is all zero. -/
def zeroUuid : ble_uuid_any_t := ⟨0, List.replicate 16 0, by simp⟩

/-- The byte written by the two hexadecimal digits at positions `2k` and `2k+1`. -/
def pairByte (s : List Char) (k : Nat) : Nat :=
  16 * ((s[2 * k]?.bind hexDigit).getD 0) + ((s[2 * k + 1]?.bind hexDigit).getD 0)

/-- Lower-case hexadecimal digit of a value below 16. -/
def hexChar (n : Nat) : Char :=
  if n < 10 then Char.ofNat (48 + n) else Char.ofNat (87 + n)

/-- Two lower-case hexadecimal digits for every byte of the list. -/
def hexText : List Nat → List Char
  | [] => []
  | b :: bs => hexChar (b / 16) :: hexChar (b % 16) :: hexText bs

/-- Modelled from the spec: `decode`, the inverse of `encode` of section 4.1, has no
function in the source (only a commented-out printing helper). It reads the sixteen
bytes of the identifier in reverse order and writes each as two lower-case hexadecimal
digits, without separators. -/
def decode (u : ble_uuid_any_t) : List Char :=
  hexText u.value.reverse

/-- The `normalize` of section 8: dashes removed, letters folded to lower case. -/
def normalize (uuid : String) : List Char :=
  (removeDashes uuid.toList).map Char.toLower

/-- A well-formed 128-bit UUID text: 32 hexadecimal digits once dashes are removed. -/
def wellFormed (uuid : String) : Bool :=
  (removeDashes uuid.toList).length = 32 && (removeDashes uuid.toList).all isHex

/-- The bytes denoted by consecutive pairs of hexadecimal digits. -/
def pairBytes : List Char → List Nat
  | a :: b :: r => (16 * (hexDigit a).getD 0 + (hexDigit b).getD 0) :: pairBytes r
  | _ => []

/-! ## Host stack constants (NimBLE headers) -/

/-- Characteristic flag `BLE_GATT_CHR_F_READ`. -/
def BLE_GATT_CHR_F_READ : Nat := 0x0002
/-- Characteristic flag `BLE_GATT_CHR_F_WRITE_NO_RSP`. -/
def BLE_GATT_CHR_F_WRITE_NO_RSP : Nat := 0x0004
/-- Characteristic flag `BLE_GATT_CHR_F_WRITE`. -/
def BLE_GATT_CHR_F_WRITE : Nat := 0x0008
/-- Characteristic flag `BLE_GATT_CHR_F_NOTIFY`. -/
def BLE_GATT_CHR_F_NOTIFY : Nat := 0x0010
/-- Attribute error `BLE_ATT_ERR_UNLIKELY`. -/
def BLE_ATT_ERR_UNLIKELY : Int := 0x0e
/-- Attribute error `BLE_ATT_ERR_INSUFFICIENT_RES`. -/
def BLE_ATT_ERR_INSUFFICIENT_RES : Int := 0x11
/-- Access operation `BLE_GATT_ACCESS_OP_READ_CHR`. -/
def BLE_GATT_ACCESS_OP_READ_CHR : Nat := 0
/-- Access operation `BLE_GATT_ACCESS_OP_WRITE_CHR`. -/
def BLE_GATT_ACCESS_OP_WRITE_CHR : Nat := 1
/-- Access operation `BLE_GATT_ACCESS_OP_READ_DSC`. -/
def BLE_GATT_ACCESS_OP_READ_DSC : Nat := 2
/-- Access operation `BLE_GATT_ACCESS_OP_WRITE_DSC`. -/
def BLE_GATT_ACCESS_OP_WRITE_DSC : Nat := 3
/-- Service type `BLE_GATT_SVC_TYPE_PRIMARY`. -/
def BLE_GATT_SVC_TYPE_PRIMARY : Nat := 1

/-! ## Data model -/

/-- A connected device, as far as the code reads it. -/
structure BleDevice where
  connectionHandle : Nat

/-- The members of `BleCharacteristic`. A `std::function` is `none` when empty;
`characteristicHandle` is the address of the `uint16_t` cell the stack writes the
attribute handle to. -/
structure BleCharacteristic where
  uuidDefinition : ble_uuid_any_t
  onWrite : Option (List Nat → Int)
  onRead : Option (Unit → List Nat)
  onSubscribe : Option (BleDevice → Unit)
  acknowledgeWrites : Bool
  read : Bool
  write : Bool
  characteristicHandle : Nat

/-- Which function an attribute-table entry names as its `access_cb`. -/
inductive AccessCb where
  | bleCharacteristic
  | bleAdvertiser
  deriving DecidableEq, Repr

/-- The members of `ble_gatt_chr_def` that the code sets; the members it never names
are zero in every entry. A pointer is the object it points to (`none` for null), except
`val_handle`, which is an address (0 for null). -/
structure ble_gatt_chr_def where
  uuid : Option ble_uuid_any_t
  access_cb : Option AccessCb
  arg : Option BleCharacteristic
  flags : Nat
  val_handle : Nat

/-- The terminator `(struct ble_gatt_chr_def){ 0 }`. -/
def ble_gatt_chr_def.zero : ble_gatt_chr_def :=
  { uuid := none, access_cb := none, arg := none, flags := 0, val_handle := 0 }

/-- The members of `ble_gatt_svc_def` that the code sets; `characteristics` is `none`
for a null pointer. -/
structure ble_gatt_svc_def where
  type : Nat
  uuid : Option ble_uuid_any_t
  characteristics : Option (List ble_gatt_chr_def)

/-- The terminator `(struct ble_gatt_svc_def){ 0 }`. -/
def ble_gatt_svc_def.zero : ble_gatt_svc_def :=
  { type := 0, uuid := none, characteristics := none }

/-- The members of `BleService`: `gattCharacteristicDefinitions` is `none` while the
pointer is null. -/
structure BleService where
  uuidDefinition : ble_uuid_any_t
  characteristics : List BleCharacteristic
  gattCharacteristicDefinitions : Option (List ble_gatt_chr_def)

/-- An `os_mbuf` chain: the bytes of the first buffer (`om_data`, `om_len` of them) and
the buffers that follow it. -/
structure os_mbuf where
  om_data : List Nat
  next : List (List Nat)

/-- All bytes held by the chain, in order. -/
def os_mbuf.payload (m : os_mbuf) : List Nat :=
  m.om_data ++ m.next.foldr (fun b acc => b ++ acc) []

/-- The members of `ble_gatt_access_ctxt` that the handlers read. -/
structure ble_gatt_access_ctxt where
  op : Nat
  om : os_mbuf

/-- What the code does not decide: the allocator and the host stack. -/
structure Env where
  /-- Whether the `k`-th call of `malloc` returns memory. -/
  malloc : Nat → Bool
  /-- Content of fresh `malloc` memory, per array index. -/
  junkChr : Nat → ble_gatt_chr_def
  /-- Content of fresh `malloc` memory, per array index. -/
  junkSvc : Nat → ble_gatt_svc_def
  /-- Address returned by `new uint16_t`, given the addresses of the live cells. -/
  newHandle : List Nat → Nat
  /-- The stack call `os_mbuf_append(om, data, len)`: return code and the chain after. -/
  os_mbuf_append : os_mbuf → List Nat → Int × os_mbuf

/-- An allocator never hands out the null address or the address of a live cell. -/
def Env.freshHandles (env : Env) : Prop :=
  ∀ live : List Nat, env.newHandle live ≠ 0 ∧ env.newHandle live ∉ live

/-- The mutable state around `BleAdvertiser`: the number of `malloc` calls made, the
live `uint16_t` cells with their contents, and the static map
`characteristicHandlesToCharacteristics`, kept in key order as `std::map` iterates it. -/
structure World where
  mallocCalls : Nat
  live : List Nat
  mem : Nat → Nat
  characteristicHandlesToCharacteristics : List (Nat × BleCharacteristic)

/-- A handler invocation: which cell address identifies the characteristic, and for a
write the bytes passed. -/
inductive Call where
  | onRead (handle : Nat)
  | onWrite (handle : Nat) (data : List Nat)
  deriving DecidableEq, Repr

/-- What an access callback leaves behind: how it ended, the chain of the context, and
the handler invocations it made, in order. -/
structure Access where
  ret : Ret Int
  om : os_mbuf
  calls : List Call

/-! ## Loops -/

/-- The loop `for (index = from; index < n; index++) body`, on an explicit state. -/
def forLoop {σ : Type} (n : Nat) (body : (index : Nat) → index < n → σ → σ)
    (index : Nat) (s : σ) : σ :=
  if h : index < n then forLoop n body (index + 1) (body index h s) else s
termination_by n - index

/-! ## `BleCharacteristic.cpp` -/

/-- `BleCharacteristic::populateGattCharacteristicDefinition`: the returned code and
the entry written through the pointer. -/
def BleCharacteristic.populateGattCharacteristicDefinition (c : BleCharacteristic) :
    Int × ble_gatt_chr_def :=
  let flags : Nat := 0
  let flags := flags ||| (if c.read then BLE_GATT_CHR_F_READ else 0)
  let acknowledgeWritesFlag :=
    if c.acknowledgeWrites then BLE_GATT_CHR_F_WRITE else BLE_GATT_CHR_F_WRITE_NO_RSP
  let flags := if c.write then flags ||| acknowledgeWritesFlag else flags
  let flags := flags ||| BLE_GATT_CHR_F_NOTIFY
  (ESP_OK,
    { uuid := some c.uuidDefinition
      access_cb := some AccessCb.bleCharacteristic
      arg := some c
      flags := flags
      val_handle := c.characteristicHandle })

/-- `BleCharacteristic::characteristicAccessHandler`, with `arg` the characteristic the
entry was populated from and `mem` the content of the handle cells. -/
def BleCharacteristic.characteristicAccessHandler (env : Env) (mem : Nat → Nat)
    (connectionHandle attributeHandle : Nat) (gattAccessContext : ble_gatt_access_ctxt)
    (arg : BleCharacteristic) : Access :=
  let characteristic := arg
  if gattAccessContext.op = BLE_GATT_ACCESS_OP_READ_CHR then
    if mem characteristic.characteristicHandle ≠ attributeHandle then
      ⟨Ret.ok BLE_ATT_ERR_UNLIKELY, gattAccessContext.om, []⟩
    else
      match characteristic.onRead with
      | none => ⟨Ret.ok BLE_ATT_ERR_UNLIKELY, gattAccessContext.om, []⟩
      | some onRead =>
        let data := onRead ()
        let (response, om) := env.os_mbuf_append gattAccessContext.om data
        ⟨Ret.ok (if response = 0 then 0 else BLE_ATT_ERR_INSUFFICIENT_RES), om,
          [Call.onRead characteristic.characteristicHandle]⟩
  else if gattAccessContext.op = BLE_GATT_ACCESS_OP_WRITE_CHR then
    if mem characteristic.characteristicHandle ≠ attributeHandle then
      ⟨Ret.ok BLE_ATT_ERR_UNLIKELY, gattAccessContext.om, []⟩
    else
      match characteristic.onWrite with
      | none => ⟨Ret.ok BLE_ATT_ERR_UNLIKELY, gattAccessContext.om, []⟩
      | some onWrite =>
        let data := gattAccessContext.om.om_data
        ⟨Ret.ok (onWrite data), gattAccessContext.om,
          [Call.onWrite characteristic.characteristicHandle data]⟩
  else if gattAccessContext.op = BLE_GATT_ACCESS_OP_READ_DSC then
    ⟨Ret.ok BLE_ATT_ERR_UNLIKELY, gattAccessContext.om, []⟩
  else if gattAccessContext.op = BLE_GATT_ACCESS_OP_WRITE_DSC then
    ⟨Ret.ok BLE_ATT_ERR_UNLIKELY, gattAccessContext.om, []⟩
  else
    ⟨Ret.ok BLE_ATT_ERR_UNLIKELY, gattAccessContext.om, []⟩

/-! ## `BleService.cpp` -/

/-- `BleService::createGattCharacteristicDefinitions`, as the `k`-th caller of `malloc`:
the returned code and the service with its `gattCharacteristicDefinitions` member. -/
def BleService.createGattCharacteristicDefinitions (env : Env) (k : Nat) (s : BleService) :
    Int × BleService :=
  let characteristicsLength := s.characteristics.length
  if env.malloc k = false then
    (ESP_ERR_NO_MEM, { s with gattCharacteristicDefinitions := none })
  else
    let block := (List.range (characteristicsLength + 1)).map env.junkChr
    let block := forLoop characteristicsLength
      (fun index h defs =>
        defs.set index (s.characteristics[index].populateGattCharacteristicDefinition).2)
      0 block
    let block := block.set characteristicsLength ble_gatt_chr_def.zero
    (ESP_OK, { s with gattCharacteristicDefinitions := some block })

/-- `BleService::populateGattServiceDefinition`. -/
def BleService.populateGattServiceDefinition (s : BleService) : Int × ble_gatt_svc_def :=
  (ESP_OK,
    { type := BLE_GATT_SVC_TYPE_PRIMARY
      uuid := some s.uuidDefinition
      characteristics := s.gattCharacteristicDefinitions })

/-! ## `BleAdvertiser.cpp` -/

/-- `std::map::insert`: nothing happens when the key is present, otherwise the pair
takes its place in key order. -/
def mapInsert (m : List (Nat × BleCharacteristic)) (key : Nat) (value : BleCharacteristic) :
    List (Nat × BleCharacteristic) :=
  if m.any (fun e => e.1 = key) then m
  else List.orderedInsert (fun a b => a.1 ≤ b.1) (key, value) m

/-- `BleAdvertiser::createCharacteristicDefinition`: the state after the call and the
returned entry. The `uuid` pointer is taken as the identifier of the characteristic
passed in. -/
def BleAdvertiser.createCharacteristicDefinition (env : Env) (w : World)
    (characteristic : BleCharacteristic) : World × ble_gatt_chr_def :=
  let characteristicHandle := env.newHandle w.live
  let w : World :=
    { w with
      live := characteristicHandle :: w.live
      mem := fun a => if a = characteristicHandle then 0 else w.mem a
      characteristicHandlesToCharacteristics :=
        mapInsert w.characteristicHandlesToCharacteristics characteristicHandle characteristic }
  let flags : Nat := 0
  let flags := flags ||| (if characteristic.read then BLE_GATT_CHR_F_READ else 0)
  let acknowledgeWrites :=
    if characteristic.acknowledgeWrites then BLE_GATT_CHR_F_WRITE else BLE_GATT_CHR_F_WRITE_NO_RSP
  let flags := if characteristic.write then flags ||| acknowledgeWrites else flags
  (w,
    { uuid := some characteristic.uuidDefinition
      access_cb := some AccessCb.bleAdvertiser
      arg := none
      flags := flags
      val_handle := characteristicHandle })

/-- `BleAdvertiser::createCharacteristicDefinitions`: the state after the call and the
returned array, `none` for a null pointer. -/
def BleAdvertiser.createCharacteristicDefinitions (env : Env) (w : World)
    (characteristics : List BleCharacteristic) : World × Option (List ble_gatt_chr_def) :=
  let characteristicsLength := characteristics.length
  let gotMemory := env.malloc w.mallocCalls
  let w : World := { w with mallocCalls := w.mallocCalls + 1 }
  if gotMemory = false then (w, none)
  else
    let gattCharacteristics := (List.range (characteristicsLength + 1)).map env.junkChr
    let st := forLoop characteristicsLength
      (fun index h (st : World × List ble_gatt_chr_def) =>
        ((BleAdvertiser.createCharacteristicDefinition env st.1 characteristics[index]).1,
          st.2.set index
            (BleAdvertiser.createCharacteristicDefinition env st.1 characteristics[index]).2))
      0 (w, gattCharacteristics)
    (st.1, some (st.2.set characteristicsLength ble_gatt_chr_def.zero))

/-- `BleAdvertiser::createServiceDefinition`: the state after the call and the returned
entry. -/
def BleAdvertiser.createServiceDefinition (env : Env) (w : World) (service : BleService) :
    World × ble_gatt_svc_def :=
  let built := BleAdvertiser.createCharacteristicDefinitions env w service.characteristics
  (built.1,
    { type := BLE_GATT_SVC_TYPE_PRIMARY
      uuid := some service.uuidDefinition
      characteristics := built.2 })

/-- `BleAdvertiser::createServiceDefinitions`: the state after the call and the returned
table, `none` for a null pointer. -/
def BleAdvertiser.createServiceDefinitions (env : Env) (w : World)
    (services : List BleService) : World × Option (List ble_gatt_svc_def) :=
  let servicesLength := services.length
  let gotMemory := env.malloc w.mallocCalls
  let w : World := { w with mallocCalls := w.mallocCalls + 1 }
  if gotMemory = false then (w, none)
  else
    let gattServices := (List.range (servicesLength + 1)).map env.junkSvc
    let st := forLoop servicesLength
      (fun index h (st : World × List ble_gatt_svc_def) =>
        ((BleAdvertiser.createServiceDefinition env st.1 services[index]).1,
          st.2.set index (BleAdvertiser.createServiceDefinition env st.1 services[index]).2))
      0 (w, gattServices)
    (st.1, some (st.2.set servicesLength ble_gatt_svc_def.zero))

/-- `BleAdvertiser::characteristicAccessHandler`. The range-for over the map returns at
the first entry, in key order, whose cell holds `attr_handle`. Calling an empty
`std::function` throws `bad_function_call`. -/
def BleAdvertiser.characteristicAccessHandler (env : Env) (w : World)
    (conn_handle attr_handle : Nat) (ctxt : ble_gatt_access_ctxt) : Access :=
  if ctxt.op = BLE_GATT_ACCESS_OP_READ_CHR then
    match w.characteristicHandlesToCharacteristics.find? (fun e => w.mem e.1 = attr_handle) with
    | some (characteristicHandle, characteristic) =>
      match characteristic.onRead with
      | none => ⟨Ret.thrown Exc.bad_function_call, ctxt.om, []⟩
      | some onRead =>
        let data := onRead ()
        let (response, om) := env.os_mbuf_append ctxt.om data
        ⟨Ret.ok (if response = 0 then 0 else BLE_ATT_ERR_INSUFFICIENT_RES), om,
          [Call.onRead characteristicHandle]⟩
    | none => ⟨Ret.ok BLE_ATT_ERR_UNLIKELY, ctxt.om, []⟩
  else if ctxt.op = BLE_GATT_ACCESS_OP_WRITE_CHR then
    match w.characteristicHandlesToCharacteristics.find? (fun e => w.mem e.1 = attr_handle) with
    | some (characteristicHandle, characteristic) =>
      match characteristic.onWrite with
      | none => ⟨Ret.thrown Exc.bad_function_call, ctxt.om, []⟩
      | some onWrite =>
        let data := ctxt.om.om_data
        ⟨Ret.ok (onWrite data), ctxt.om, [Call.onWrite characteristicHandle data]⟩
    | none => ⟨Ret.ok BLE_ATT_ERR_UNLIKELY, ctxt.om, []⟩
  else if ctxt.op = BLE_GATT_ACCESS_OP_READ_DSC then
    ⟨Ret.ok BLE_ATT_ERR_UNLIKELY, ctxt.om, []⟩
  else if ctxt.op = BLE_GATT_ACCESS_OP_WRITE_DSC then
    ⟨Ret.ok BLE_ATT_ERR_UNLIKELY, ctxt.om, []⟩
  else
    ⟨Ret.ok BLE_ATT_ERR_UNLIKELY, ctxt.om, []⟩

/-! ## Vocabulary of the statements and sample data -/

/-- Whether the flag bit `f` is set in `flags`. -/
def hasFlag (flags f : Nat) : Bool := flags &&& f ≠ 0

/-- The bits of the four flags the builders know. -/
def knownFlags : Nat :=
  BLE_GATT_CHR_F_READ ||| BLE_GATT_CHR_F_WRITE_NO_RSP ||| BLE_GATT_CHR_F_WRITE |||
    BLE_GATT_CHR_F_NOTIFY

/-- A descriptor supports subscription when it carries a subscribe handler. -/
def BleCharacteristic.supportsSubscription (c : BleCharacteristic) : Bool :=
  c.onSubscribe.isSome

/-- A transport that always accepts: the bytes go to the end of the first buffer. -/
def acceptingAppend (om : os_mbuf) (data : List Nat) : Int × os_mbuf :=
  (0, { om with om_data := om.om_data ++ data })

/-- An environment in which every allocation succeeds, the next cell address is one
more than the sum of the live ones, and the transport accepts every append. -/
def sampleEnv : Env :=
  { malloc := fun _ => true
    junkChr := fun _ => ble_gatt_chr_def.zero
    junkSvc := fun _ => ble_gatt_svc_def.zero
    newHandle := fun live => live.sum + 1
    os_mbuf_append := acceptingAppend }

/-- A readable characteristic whose read handler returns the bytes `0x01, 0x02`; its
handle cell is at address 100. -/
def sampleReadable : BleCharacteristic :=
  { uuidDefinition := zeroUuid
    onWrite := none
    onRead := some (fun _ => [0x01, 0x02])
    onSubscribe := none
    acknowledgeWrites := false
    read := true
    write := false
    characteristicHandle := 100 }

/-- A characteristic without a read handler, writable with acknowledgement and with a
subscribe handler; its handle cell is at address 100. -/
def sampleWriteOnly : BleCharacteristic :=
  { uuidDefinition := zeroUuid
    onWrite := some (fun _ => 0)
    onRead := none
    onSubscribe := some (fun _ => ())
    acknowledgeWrites := true
    read := false
    write := true
    characteristicHandle := 100 }

/-- A state in which the given characteristic is registered under the cell at address
100, and the stack has written the attribute handle 7 into that cell. -/
def sampleWorld (c : BleCharacteristic) : World :=
  { mallocCalls := 0
    live := [100]
    mem := fun a => if a = 100 then 7 else 0
    characteristicHandlesToCharacteristics := [(100, c)] }

/-- A read access with an empty response chain. -/
def sampleRead : ble_gatt_access_ctxt :=
  { op := BLE_GATT_ACCESS_OP_READ_CHR, om := { om_data := [], next := [] } }

/-- Running a state-passing function over a list, left to right, collecting the
outputs: what a loop that fills an array from a list computes. -/
def runState {σ α β : Type} (f : σ → α → σ × β) : σ → List α → σ × List β
  | w, [] => (w, [])
  | w, x :: xs => ((runState f (f w x).1 xs).1, (f w x).2 :: (runState f (f w x).1 xs).2)

/-- The registered cell addresses are pairwise distinct and all belong to live cells. -/
def World.registryOk (w : World) : Prop :=
  (w.characteristicHandlesToCharacteristics.map Prod.fst).Nodup ∧
  ∀ e ∈ w.characteristicHandlesToCharacteristics, e.1 ∈ w.live

/-- A service without characteristics. -/
def sampleEmptyService : BleService :=
  { uuidDefinition := zeroUuid, characteristics := [], gattCharacteristicDefinitions := none }

/-- A service with the readable and the write-only sample characteristic. -/
def sampleService : BleService :=
  { uuidDefinition := zeroUuid
    characteristics := [sampleReadable, sampleWriteOnly]
    gattCharacteristicDefinitions := none }

/-- The state before compilation: nothing allocated, nothing registered. -/
def emptyWorld : World :=
  { mallocCalls := 0, live := [], mem := fun _ => 0, characteristicHandlesToCharacteristics := [] }

/-- A characteristic whose write handler answers the number of bytes it was given;
its handle cell is at address 100. -/
def sampleCounting : BleCharacteristic :=
  { uuidDefinition := zeroUuid
    onWrite := some (fun data => (data.length : Int))
    onRead := none
    onSubscribe := none
    acknowledgeWrites := true
    read := false
    write := true
    characteristicHandle := 100 }

/-- A write access whose payload of one byte sits in a single buffer. -/
def sampleWrite : ble_gatt_access_ctxt :=
  { op := BLE_GATT_ACCESS_OP_WRITE_CHR, om := { om_data := [0xaa], next := [] } }

/-- A write access whose payload of four bytes is spread over a chain of two buffers. -/
def sampleChainedWrite : ble_gatt_access_ctxt :=
  { op := BLE_GATT_ACCESS_OP_WRITE_CHR, om := { om_data := [1, 2], next := [[3, 4]] } }

/-! ## Connection lifecycle (`BleAdvertiser.cpp`) -/

/-- Advertising flag `BLE_HS_ADV_F_DISC_GEN`. -/
def BLE_HS_ADV_F_DISC_GEN : Nat := 0x02
/-- Advertising flag `BLE_HS_ADV_F_BREDR_UNSUP`. -/
def BLE_HS_ADV_F_BREDR_UNSUP : Nat := 0x04
/-- The value `BLE_HS_ADV_TX_PWR_LVL_AUTO`. -/
def BLE_HS_ADV_TX_PWR_LVL_AUTO : Int := -128
/-- Host error `BLE_HS_EMSGSIZE`. -/
def BLE_HS_EMSGSIZE : Int := 4
/-- Maximum size of an advertising packet, `BLE_HS_ADV_MAX_SZ`. -/
def BLE_HS_ADV_MAX_SZ : Nat := 31
/-- The duration `BLE_HS_FOREVER`. -/
def BLE_HS_FOREVER : Int := 2147483647
/-- Connection mode `BLE_GAP_CONN_MODE_UND`. -/
def BLE_GAP_CONN_MODE_UND : Nat := 2
/-- Discovery mode `BLE_GAP_DISC_MODE_GEN`. -/
def BLE_GAP_DISC_MODE_GEN : Nat := 2
/-- The conversion `BLE_GAP_ADV_ITVL_MS(t)` from milliseconds to units of 0.625 ms. -/
def BLE_GAP_ADV_ITVL_MS (t : Nat) : Nat := t * 1000 / 625
/-- The `#define BLE_GAP_URI_PREFIX_HTTPS` of the source. -/
def BLE_GAP_URI_PREFIX_HTTPS : Nat := 0x17
/-- The static array `esp_uri`: the scheme byte and the characters of `//espressif.com`. -/
def esp_uri : List Nat :=
  [BLE_GAP_URI_PREFIX_HTTPS, 47, 47, 101, 115, 112, 114, 101, 115, 115, 105, 102, 46, 99, 111,
    109]

/-- The members of `ble_hs_adv_fields` that `startAdvertising` sets; a pointer is the
bytes it points to. -/
structure ble_hs_adv_fields where
  flags : Nat
  name : List Char
  name_len : Nat
  name_is_complete : Nat
  tx_pwr_lvl : Int
  tx_pwr_lvl_is_present : Nat
  appearance : Nat
  appearance_is_present : Nat
  le_role : Nat
  le_role_is_present : Nat
  device_addr : List Nat
  device_addr_type : Nat
  device_addr_is_present : Nat
  uri : List Nat
  uri_len : Nat
  adv_itvl : Nat
  adv_itvl_is_present : Nat
  deriving DecidableEq, Repr

/-- The initialiser `{0}` of `ble_hs_adv_fields`. -/
def ble_hs_adv_fields.zero : ble_hs_adv_fields :=
  { flags := 0, name := [], name_len := 0, name_is_complete := 0, tx_pwr_lvl := 0
    tx_pwr_lvl_is_present := 0, appearance := 0, appearance_is_present := 0, le_role := 0
    le_role_is_present := 0, device_addr := [], device_addr_type := 0
    device_addr_is_present := 0, uri := [], uri_len := 0, adv_itvl := 0
    adv_itvl_is_present := 0 }

/-- The members of `ble_gap_adv_params` that `startAdvertising` sets. -/
structure ble_gap_adv_params where
  conn_mode : Nat
  disc_mode : Nat
  itvl_min : Nat
  itvl_max : Nat
  deriving DecidableEq, Repr

/-- The members of `ble_gap_upd_params` that `gapEventHandler` sets. -/
structure ble_gap_upd_params where
  itvl_min : Nat
  itvl_max : Nat
  latency : Nat
  supervision_timeout : Nat
  deriving DecidableEq, Repr

/-- The members of `ble_gap_conn_desc` that `gapEventHandler` reads. -/
structure ble_gap_conn_desc where
  conn_handle : Nat
  conn_itvl : Nat
  conn_latency : Nat
  supervision_timeout : Nat
  deriving DecidableEq, Repr

/-- The `ble_gap_event` union: the three event types the handler names, and any other
type. -/
inductive ble_gap_event where
  | connect (status : Int) (conn_handle : Nat)
  | disconnect (reason : Int)
  | conn_update (status : Int) (conn_handle : Nat)
  | other (type : Nat)
  deriving DecidableEq, Repr

/-- A request made to the host stack, with its arguments. -/
inductive StackCall where
  | ble_gap_adv_set_fields (fields : ble_hs_adv_fields)
  | ble_gap_adv_rsp_set_fields (fields : ble_hs_adv_fields)
  | ble_gap_adv_start (own_addr_type : Nat) (duration : Int) (params : ble_gap_adv_params)
  | ble_gap_conn_find (conn_handle : Nat)
  | ble_gap_update_params (conn_handle : Nat) (params : ble_gap_upd_params)
  | ble_gattc_exchange_mtu (conn_handle : Nat)
  deriving DecidableEq, Repr

/-- The answers of the host stack to the requests of the lifecycle code. -/
structure HostStack where
  ble_gap_adv_set_fields : ble_hs_adv_fields → Int
  ble_gap_adv_rsp_set_fields : ble_hs_adv_fields → Int
  ble_gap_adv_start : Nat → Int → ble_gap_adv_params → Int
  ble_gap_conn_find : Nat → Int × ble_gap_conn_desc
  ble_gap_update_params : Nat → ble_gap_upd_params → Int

/-- What the link is doing. The host stack keeps this state: it advertises after an
accepted `ble_gap_adv_start`, a connect event with status 0 reports a connection in place
of the advertising, and a failed connect or a disconnect leaves neither. -/
inductive LinkState where
  | advertising
  | connected
  | neither
  deriving DecidableEq, Repr

/-- The static members of `BleAdvertiser` that the lifecycle code uses, the device name
held by the GAP service (`ble_svc_gap_device_name()`), and the link state. -/
structure Advertiser where
  deviceName : String
  deviceAppearance : Nat
  deviceRole : Nat
  deviceAddress : List Nat
  deviceAddressType : Nat
  mtu : Nat
  gapDeviceName : String
  link : LinkState
  deriving DecidableEq, Repr

/-- The exit of `startAdvertising` taken, that is the message it logged last. -/
inductive AdvOutcome where
  | messageTooLong
  | setFieldsFailed (rc : Int)
  | setResponseFailed (rc : Int)
  | startFailed (rc : Int)
  | started
  deriving DecidableEq, Repr

/-- What a pass of `startAdvertising` leaves behind. -/
structure AdvPass where
  state : Advertiser
  calls : List StackCall
  outcome : AdvOutcome
  deriving DecidableEq, Repr

/-- The local `advertisingFields` of `startAdvertising` at the time it is submitted. -/
def BleAdvertiser.advertisingFields (a : Advertiser) : ble_hs_adv_fields :=
  let name := a.gapDeviceName
  { ble_hs_adv_fields.zero with
    flags := BLE_HS_ADV_F_DISC_GEN ||| BLE_HS_ADV_F_BREDR_UNSUP
    name := name.toList
    name_len := name.length % 256
    name_is_complete := 1
    tx_pwr_lvl := BLE_HS_ADV_TX_PWR_LVL_AUTO
    tx_pwr_lvl_is_present := 1
    appearance := a.deviceAppearance
    appearance_is_present := 1
    le_role := a.deviceRole
    le_role_is_present := 1 }

/-- The local `responseFields` of `startAdvertising` at the time it is submitted. -/
def BleAdvertiser.responseFields (a : Advertiser) : ble_hs_adv_fields :=
  { ble_hs_adv_fields.zero with
    device_addr := a.deviceAddress
    device_addr_type := a.deviceAddressType
    device_addr_is_present := 1
    uri := esp_uri
    uri_len := esp_uri.length
    adv_itvl := BLE_GAP_ADV_ITVL_MS 500
    adv_itvl_is_present := 1 }

/-- The local `advertisingParams` of `startAdvertising` at the time it is submitted. -/
def BleAdvertiser.advertisingParams : ble_gap_adv_params :=
  { conn_mode := BLE_GAP_CONN_MODE_UND
    disc_mode := BLE_GAP_DISC_MODE_GEN
    itvl_min := BLE_GAP_ADV_ITVL_MS 500
    itvl_max := BLE_GAP_ADV_ITVL_MS 510 }

/-- `BleAdvertiser::startAdvertising`. -/
def BleAdvertiser.startAdvertising (hs : HostStack) (a : Advertiser) : AdvPass :=
  let advertisingFields := BleAdvertiser.advertisingFields a
  let rc := hs.ble_gap_adv_set_fields advertisingFields
  if rc ≠ 0 then
    if rc = BLE_HS_EMSGSIZE then
      ⟨a, [StackCall.ble_gap_adv_set_fields advertisingFields], AdvOutcome.messageTooLong⟩
    else
      ⟨a, [StackCall.ble_gap_adv_set_fields advertisingFields], AdvOutcome.setFieldsFailed rc⟩
  else
    let responseFields := BleAdvertiser.responseFields a
    let rc := hs.ble_gap_adv_rsp_set_fields responseFields
    if rc ≠ 0 then
      ⟨a, [StackCall.ble_gap_adv_set_fields advertisingFields,
          StackCall.ble_gap_adv_rsp_set_fields responseFields],
        AdvOutcome.setResponseFailed rc⟩
    else
      let advertisingParams := BleAdvertiser.advertisingParams
      let rc := hs.ble_gap_adv_start a.deviceAddressType BLE_HS_FOREVER advertisingParams
      let calls :=
        [StackCall.ble_gap_adv_set_fields advertisingFields,
          StackCall.ble_gap_adv_rsp_set_fields responseFields,
          StackCall.ble_gap_adv_start a.deviceAddressType BLE_HS_FOREVER advertisingParams]
      if rc ≠ 0 then ⟨a, calls, AdvOutcome.startFailed rc⟩
      else ⟨{ a with link := LinkState.advertising }, calls, AdvOutcome.started⟩

/-- What a call of `gapEventHandler` leaves behind. -/
structure GapResult where
  state : Advertiser
  calls : List StackCall
  response : Int
  deriving DecidableEq, Repr

/-- `BleAdvertiser::gapEventHandler`. The first step of the connect and disconnect cases
records what the event says about the link. -/
def BleAdvertiser.gapEventHandler (hs : HostStack) (a : Advertiser) (event : ble_gap_event) :
    GapResult :=
  let response : Int := 0
  match event with
  | ble_gap_event.connect status conn_handle =>
    if status = 0 then
      let a := { a with link := LinkState.connected }
      let found := hs.ble_gap_conn_find conn_handle
      let response := found.1
      let connectionDescription := found.2
      if response ≠ 0 then ⟨a, [StackCall.ble_gap_conn_find conn_handle], response⟩
      else
        let params : ble_gap_upd_params :=
          { itvl_min := connectionDescription.conn_itvl
            itvl_max := connectionDescription.conn_itvl
            latency := 3
            supervision_timeout := connectionDescription.supervision_timeout }
        let response := hs.ble_gap_update_params conn_handle params
        if response ≠ 0 then
          ⟨a, [StackCall.ble_gap_conn_find conn_handle,
              StackCall.ble_gap_update_params conn_handle params], response⟩
        else
          ⟨a, [StackCall.ble_gap_conn_find conn_handle,
              StackCall.ble_gap_update_params conn_handle params,
              StackCall.ble_gattc_exchange_mtu conn_handle], response⟩
    else
      let pass := BleAdvertiser.startAdvertising hs { a with link := LinkState.neither }
      ⟨pass.state, pass.calls, response⟩
  | ble_gap_event.disconnect reason =>
    let pass := BleAdvertiser.startAdvertising hs { a with link := LinkState.neither }
    ⟨pass.state, pass.calls, response⟩
  | ble_gap_event.conn_update status conn_handle =>
    let found := hs.ble_gap_conn_find conn_handle
    let response := found.1
    ⟨a, [StackCall.ble_gap_conn_find conn_handle], response⟩
  | ble_gap_event.other type => ⟨a, [], response⟩

/-- `BleAdvertiser::mtuEventHandler`: the state after the call and the returned code. -/
def BleAdvertiser.mtuEventHandler (a : Advertiser) (mtu : Nat) : Advertiser × Int :=
  ({ a with mtu := mtu }, 0)

/-- The controller after a sequence of events, each with the answers the stack gives
while it is handled. -/
def runEvents (a : Advertiser) : List (HostStack × ble_gap_event) → Advertiser
  | [] => a
  | (hs, event) :: rest => runEvents (BleAdvertiser.gapEventHandler hs a event).state rest

/-- The stack accepts every request of an advertising pass. -/
def HostStack.acceptsAdvertising (hs : HostStack) : Prop :=
  (∀ f, hs.ble_gap_adv_set_fields f = 0) ∧ (∀ f, hs.ble_gap_adv_rsp_set_fields f = 0) ∧
  ∀ t d p, hs.ble_gap_adv_start t d p = 0

/-- The stack accepts every request of the lifecycle code. -/
def HostStack.acceptsAll (hs : HostStack) : Prop :=
  hs.acceptsAdvertising ∧ (∀ h, (hs.ble_gap_conn_find h).1 = 0) ∧
  ∀ h p, hs.ble_gap_update_params h p = 0

/-- A connection descriptor the sample stacks answer with. -/
def sampleDesc (conn_handle : Nat) : ble_gap_conn_desc :=
  { conn_handle := conn_handle, conn_itvl := 24, conn_latency := 0, supervision_timeout := 400 }

/-- A stack that accepts every request. -/
def acceptingStack : HostStack :=
  { ble_gap_adv_set_fields := fun _ => 0
    ble_gap_adv_rsp_set_fields := fun _ => 0
    ble_gap_adv_start := fun _ _ _ => 0
    ble_gap_conn_find := fun h => (0, sampleDesc h)
    ble_gap_update_params := fun _ _ => 0 }

/-- A stack that accepts everything but `ble_gap_adv_start`, which it answers with 6. -/
def refusingStartStack : HostStack :=
  { ble_gap_adv_set_fields := fun _ => 0
    ble_gap_adv_rsp_set_fields := fun _ => 0
    ble_gap_adv_start := fun _ _ _ => 6
    ble_gap_conn_find := fun h => (0, sampleDesc h)
    ble_gap_update_params := fun _ _ => 0 }

/-- Length of the packet the stack encodes from the fields that are present: every
field takes a length byte, a type byte and its data (flags 1, power 1, appearance 2, role
1, address with type 7, interval 2, name and URI their length). -/
def encodedSize (f : ble_hs_adv_fields) : Nat :=
  (if f.flags ≠ 0 then 3 else 0) +
  (if f.name_len ≠ 0 then 2 + f.name_len else 0) +
  (if f.tx_pwr_lvl_is_present ≠ 0 then 3 else 0) +
  (if f.appearance_is_present ≠ 0 then 4 else 0) +
  (if f.le_role_is_present ≠ 0 then 3 else 0) +
  (if f.device_addr_is_present ≠ 0 then 9 else 0) +
  (if f.uri_len ≠ 0 then 2 + f.uri_len else 0) +
  (if f.adv_itvl_is_present ≠ 0 then 4 else 0)

/-- A stack that answers `BLE_HS_EMSGSIZE` to fields whose packet would exceed
`BLE_HS_ADV_MAX_SZ`, and accepts every other request. -/
def sizeCheckingStack : HostStack :=
  { ble_gap_adv_set_fields := fun f =>
      if encodedSize f > BLE_HS_ADV_MAX_SZ then BLE_HS_EMSGSIZE else 0
    ble_gap_adv_rsp_set_fields := fun f =>
      if encodedSize f > BLE_HS_ADV_MAX_SZ then BLE_HS_EMSGSIZE else 0
    ble_gap_adv_start := fun _ _ _ => 0
    ble_gap_conn_find := fun h => (0, sampleDesc h)
    ble_gap_update_params := fun _ _ => 0 }

/-- The advertising fields with the out-of-band hint of the response fields (device
address and URI) folded in. -/
def withHint (adv rsp : ble_hs_adv_fields) : ble_hs_adv_fields :=
  { adv with
    device_addr := rsp.device_addr
    device_addr_type := rsp.device_addr_type
    device_addr_is_present := rsp.device_addr_is_present
    uri := rsp.uri
    uri_len := rsp.uri_len }

/-- The controller with the default device name of the source, before any pass. -/
def sampleAdvertiser : Advertiser :=
  { deviceName := "esp32_bluetooth"
    deviceAppearance := 0
    deviceRole := 0
    deviceAddress := [1, 2, 3, 4, 5, 6]
    deviceAddressType := 0
    mtu := 0
    gapDeviceName := "esp32_bluetooth"
    link := LinkState.neither }

/-- A connected controller with a device name of 17 characters. -/
def longNameAdvertiser : Advertiser :=
  { deviceName := "esp32_bluetooth_x"
    deviceAppearance := 0
    deviceRole := 0
    deviceAddress := [1, 2, 3, 4, 5, 6]
    deviceAddressType := 0
    mtu := 0
    gapDeviceName := "esp32_bluetooth_x"
    link := LinkState.connected }

/-! ## Construction and notification (`BleCharacteristic.cpp`, `BleService.cpp`) -/

/-- `BleCharacteristic::BleCharacteristic(string, onWrite, onRead, onSubscribe, bool)`.
`blank` is the object before the constructor runs: its members have what their
declarations in the header give them. -/
def BleCharacteristic.construct (blank : BleCharacteristic) (uuid : String)
    (onWrite : Option (List Nat → Int)) (onRead : Option (Unit → List Nat))
    (onSubscribe : Option (BleDevice → Unit)) (acknowledgeWrites : Bool) :
    Ret BleCharacteristic :=
  let this : BleCharacteristic :=
    { blank with
      onWrite := onWrite
      onRead := onRead
      onSubscribe := onSubscribe
      acknowledgeWrites := acknowledgeWrites }
  let this : BleCharacteristic := { this with read := onRead.isSome }
  let this : BleCharacteristic := { this with write := onWrite.isSome }
  match uuidStringToUuid uuid this.uuidDefinition with
  | Ret.ok (code, uuidDefinition) =>
    if code ≠ ESP_OK then Ret.abort code
    else Ret.ok { this with uuidDefinition := uuidDefinition }
  | Ret.abort code => Ret.abort code
  | Ret.thrown e => Ret.thrown e

/-- `BleCharacteristic::BleCharacteristic(BleCharacteristic&&)`: the five assignments of
its body, on the object `blank` as it is before the constructor runs. -/
def BleCharacteristic.moveConstruct (blank other : BleCharacteristic) : BleCharacteristic :=
  let this : BleCharacteristic := { blank with uuidDefinition := other.uuidDefinition }
  let this : BleCharacteristic := { this with onWrite := other.onWrite }
  let this : BleCharacteristic := { this with onRead := other.onRead }
  let this : BleCharacteristic := { this with onSubscribe := other.onSubscribe }
  { this with acknowledgeWrites := other.acknowledgeWrites }

/-- `BleService::BleService(string, vector<BleCharacteristic>&&)`, as the `k`-th caller of
`malloc`: every element goes through the move constructor, the codes returned by
`uuidStringToUuid` and `createGattCharacteristicDefinitions` are dropped. `blank` is the
service before the constructor runs and `blankChr` a characteristic before its own. -/
def BleService.constructMoved (env : Env) (k : Nat) (blank : BleService)
    (blankChr : BleCharacteristic) (uuid : String) (characteristics : List BleCharacteristic) :
    Ret BleService :=
  let this : BleService :=
    { blank with
      characteristics :=
        blank.characteristics ++ characteristics.map (BleCharacteristic.moveConstruct blankChr) }
  match uuidStringToUuid uuid this.uuidDefinition with
  | Ret.ok (_, uuidDefinition) =>
    let this : BleService := { this with uuidDefinition := uuidDefinition }
    Ret.ok (this.createGattCharacteristicDefinitions env k).2
  | Ret.abort code => Ret.abort code
  | Ret.thrown e => Ret.thrown e

/-- `BleService::BleService(string, vector<shared_ptr<BleCharacteristic>>)`, as the
`k`-th caller of `malloc`. -/
def BleService.constructShared (env : Env) (k : Nat) (blank : BleService) (uuid : String)
    (characteristics : List BleCharacteristic) : Ret BleService :=
  let this : BleService := { blank with characteristics := characteristics }
  match uuidStringToUuid uuid this.uuidDefinition with
  | Ret.ok (_, uuidDefinition) =>
    let this : BleService := { this with uuidDefinition := uuidDefinition }
    Ret.ok (this.createGattCharacteristicDefinitions env k).2
  | Ret.abort code => Ret.abort code
  | Ret.thrown e => Ret.thrown e

/-- The arguments of one `ble_gatts_notify_custom` call; `om` is `none` for a null
buffer. -/
structure Notification where
  conn_handle : Nat
  chr_val_handle : Nat
  om : Option os_mbuf

/-- How `notify` ends: indexing an empty vector has no defined behaviour, otherwise it
returns a code after the listed requests. -/
inductive NotifyResult where
  | undefined
  | returned (code : Int) (sent : List Notification)

/-- `BleCharacteristic::notify`; `pkthdr` is what `os_msys_get_pkthdr` returned and `mem`
the content of the handle cells. -/
def BleCharacteristic.notify (env : Env) (mem : Nat → Nat) (pkthdr : Option os_mbuf)
    (c : BleCharacteristic) (devices : List BleDevice) (data : List Nat) : NotifyResult :=
  let om : Option os_mbuf :=
    match pkthdr with
    | some m => some (env.os_mbuf_append m data).2
    | none => none
  match devices with
  | [] => NotifyResult.undefined
  | first :: _ =>
    NotifyResult.returned ESP_OK [⟨first.connectionHandle, mem c.characteristicHandle, om⟩]

/-! ## Initialisation (`BleAdvertiser.cpp`) -/

/-- The value `ESP_ERR_NVS_NO_FREE_PAGES`. -/
def ESP_ERR_NVS_NO_FREE_PAGES : Int := 0x110d
/-- The value `ESP_ERR_NVS_NEW_VERSION_FOUND`. -/
def ESP_ERR_NVS_NEW_VERSION_FOUND : Int := 0x1110

/-- The answers of the platform and of the host stack to the requests of `init`. The
table argument of the GATT calls is `none` for a null pointer. -/
structure InitStack where
  /-- Answer of the `k`-th call of `nvs_flash_init`. -/
  nvs_flash_init : Nat → Int
  nvs_flash_erase : Int
  nimble_port_init : Int
  ble_svc_gap_device_name_set : String → Int
  ble_svc_gap_device_appearance_set : Nat → Int
  ble_gatts_count_cfg : Option (List ble_gatt_svc_def) → Int
  ble_gatts_add_svcs : Option (List ble_gatt_svc_def) → Int

/-- `BleAdvertiser::gapInit`: the returned code and the controller, whose GAP service
holds the new name once the stack accepted it. -/
def BleAdvertiser.gapInit (is : InitStack) (a : Advertiser) : Int × Advertiser :=
  let response := is.ble_svc_gap_device_name_set a.deviceName
  if response ≠ 0 then (response, a)
  else
    let a := { a with gapDeviceName := a.deviceName }
    let response := is.ble_svc_gap_device_appearance_set a.deviceAppearance
    if response ≠ 0 then (response, a) else (response, a)

/-- `BleAdvertiser::gattSvcInit`: the returned code and the tables handed to the stack,
in order. -/
def BleAdvertiser.gattSvcInit (is : InitStack)
    (serviceDefinitions : Option (List ble_gatt_svc_def)) :
    Int × List (Option (List ble_gatt_svc_def)) :=
  let response := is.ble_gatts_count_cfg serviceDefinitions
  if response ≠ 0 then (response, [serviceDefinitions])
  else
    let response := is.ble_gatts_add_svcs serviceDefinitions
    if response ≠ 0 then (response, [serviceDefinitions, serviceDefinitions])
    else (0, [serviceDefinitions, serviceDefinitions])

/-- What `init` leaves behind: how it ended, the static `initiated`, the controller, the
allocation state and the tables it handed to the stack. -/
structure InitResult where
  ret : Ret Bool
  initiated : Bool
  advertiser : Advertiser
  world : World
  handed : List (Option (List ble_gatt_svc_def))

/-- `BleAdvertiser::init`. -/
def BleAdvertiser.init (env : Env) (is : InitStack) (a : Advertiser) (w : World)
    (initiated : Bool) (deviceName : String) (deviceAppearance deviceRole : Nat)
    (services : List BleService) : InitResult :=
  let a : Advertiser :=
    { a with
      deviceName := deviceName
      deviceAppearance := deviceAppearance
      deviceRole := deviceRole }
  let response := is.nvs_flash_init 0
  let flash : Ret Int :=
    if response ≠ ESP_OK then
      if response = ESP_ERR_NVS_NO_FREE_PAGES ∨ response = ESP_ERR_NVS_NEW_VERSION_FOUND then
        if is.nvs_flash_erase ≠ ESP_OK then Ret.abort is.nvs_flash_erase
        else Ret.ok (is.nvs_flash_init 1)
      else Ret.ok ESP_OK
    else Ret.ok ESP_OK
  match flash with
  | Ret.abort code => ⟨Ret.abort code, initiated, a, w, []⟩
  | Ret.thrown e => ⟨Ret.thrown e, initiated, a, w, []⟩
  | Ret.ok response =>
    if response ≠ ESP_OK then ⟨Ret.ok false, initiated, a, w, []⟩
    else
      let response := is.nimble_port_init
      if response ≠ ESP_OK then ⟨Ret.ok false, initiated, a, w, []⟩
      else
        let gap := BleAdvertiser.gapInit is a
        if gap.1 ≠ 0 then ⟨Ret.ok false, initiated, gap.2, w, []⟩
        else
          let built := BleAdvertiser.createServiceDefinitions env w services
          let gatt := BleAdvertiser.gattSvcInit is built.2
          if gatt.1 ≠ 0 then ⟨Ret.ok false, initiated, gap.2, built.1, gatt.2⟩
          else ⟨Ret.ok true, true, gap.2, built.1, gatt.2⟩

/-- An allocator that fails the second `malloc` call only, the one for the
characteristic list of the first service. -/
def failingListEnv : Env :=
  { malloc := fun k => k != 1
    junkChr := fun _ => ble_gatt_chr_def.zero
    junkSvc := fun _ => ble_gatt_svc_def.zero
    newHandle := fun live => live.sum + 1
    os_mbuf_append := acceptingAppend }

/-- An allocator that fails every `malloc` call. -/
def failingTableEnv : Env :=
  { malloc := fun _ => false
    junkChr := fun _ => ble_gatt_chr_def.zero
    junkSvc := fun _ => ble_gatt_svc_def.zero
    newHandle := fun live => live.sum + 1
    os_mbuf_append := acceptingAppend }

/-- A platform and stack that answer success to every request of `init`. -/
def acceptingInit : InitStack :=
  { nvs_flash_init := fun _ => 0
    nvs_flash_erase := 0
    nimble_port_init := 0
    ble_svc_gap_device_name_set := fun _ => 0
    ble_svc_gap_device_appearance_set := fun _ => 0
    ble_gatts_count_cfg := fun _ => 0
    ble_gatts_add_svcs := fun _ => 0 }

/-- A characteristic object before its constructor runs, with `false` in both flags, no
handler and a null handle pointer. -/
def blankCharacteristic : BleCharacteristic :=
  { uuidDefinition := zeroUuid
    onWrite := none
    onRead := none
    onSubscribe := none
    acknowledgeWrites := false
    read := false
    write := false
    characteristicHandle := 0 }

/-- A characteristic object before its constructor runs whose handle pointer is the
cell at address 200. -/
def blankWithHandle : BleCharacteristic :=
  { uuidDefinition := zeroUuid
    onWrite := none
    onRead := none
    onSubscribe := none
    acknowledgeWrites := false
    read := false
    write := false
    characteristicHandle := 200 }

/-- The stack accepts the three requests of the advertising pass made from state `a`:
the advertising fields, the response fields and the start. A pass with a refused request
ends at that request. -/
def HostStack.acceptsPass (hs : HostStack) (a : Advertiser) : Prop :=
  hs.ble_gap_adv_set_fields (BleAdvertiser.advertisingFields a) = 0 ∧
  hs.ble_gap_adv_rsp_set_fields (BleAdvertiser.responseFields a) = 0 ∧
  hs.ble_gap_adv_start a.deviceAddressType BLE_HS_FOREVER BleAdvertiser.advertisingParams = 0

/-- The events on which `gapEventHandler` makes an advertising pass: a failed connect
and a disconnect. -/
def ble_gap_event.restartsAdvertising : ble_gap_event → Bool
  | ble_gap_event.connect status _ => status != 0
  | ble_gap_event.disconnect _ => true
  | ble_gap_event.conn_update _ _ => false
  | ble_gap_event.other _ => false

/-- Along the run of the events from `a`, the stack accepts the requests of every
advertising pass that is made. -/
def passesAccepted : Advertiser → List (HostStack × ble_gap_event) → Prop
  | _, [] => True
  | a, (hs, event) :: rest =>
    (event.restartsAdvertising = true → hs.acceptsPass a) ∧
    passesAccepted (BleAdvertiser.gapEventHandler hs a event).state rest

end Ble

namespace Ble

/-! ## Facts about the codec -/

theorem hexDigit_lt (c : Char) (h : Nat) (hc : hexDigit c = some h) : h < 16 := by
  unfold hexDigit at hc
  split_ifs at hc with h1 h2 h3 <;> simp at hc <;> omega

theorem isHex_iff (c : Char) : isHex c = true ↔ ∃ h, hexDigit c = some h := by
  simp [isHex, Option.isSome_iff_exists]

theorem isHex_not_space (c : Char) (hc : isHex c = true) : isSpace c = false := by
  unfold isHex hexDigit at hc
  unfold isSpace
  split_ifs at hc with h1 h2 h3 <;> simp at hc ⊢ <;> omega

theorem isHex_not_sign (c : Char) (hc : isHex c = true) : c.toNat ≠ 45 ∧ c.toNat ≠ 43 := by
  unfold isHex hexDigit at hc
  split_ifs at hc with h1 h2 h3 <;> simp at hc ⊢ <;> omega

theorem stoi16_pair (a b : Char) (x y : Nat) (ha : hexDigit a = some x)
    (hb : hexDigit b = some y) : stoi16 [a, b] = Except.ok ((16 * x + y : Nat) : Int) := by
  have ha1 : isHex a = true := (isHex_iff a).2 ⟨x, ha⟩
  have hb1 : isHex b = true := (isHex_iff b).2 ⟨y, hb⟩
  have hsp := isHex_not_space a ha1
  have hsg := isHex_not_sign a ha1
  have hx := hexDigit_lt a x ha
  have hy := hexDigit_lt b y hb
  simp [stoi16, List.dropWhile, hsp, takeSign, hsg.1, hsg.2, takePrefix, List.takeWhile, ha1, hb1,
    ha, hb]
  omega

theorem hexStringToUint8_pair (a b : Char) (x y r : Nat) (ha : hexDigit a = some x)
    (hb : hexDigit b = some y) : hexStringToUint8 [a, b] r = Ret.ok (ESP_OK, 16 * x + y) := by
  have hx := hexDigit_lt a x ha
  have hy := hexDigit_lt b y hb
  have h1 : ¬ (((16 * x + y : Nat) : Int) < 0 ∨ ((16 * x + y : Nat) : Int) > 255) := by omega
  have h2 : (16 * x + y) % 256 = 16 * x + y := by omega
  have h3 : (((16 * x + y : Nat) : Int)).toNat = 16 * x + y := Int.toNat_natCast _
  simp only [hexStringToUint8, stoi16_pair a b x y ha hb, if_neg h1, h3, h2]
  simp

theorem pairByte_eq (s : List Char) (k : Nat) (a b : Char) (x y : Nat)
    (h0 : s[2 * k]? = some a) (h1 : s[2 * k + 1]? = some b)
    (ha : hexDigit a = some x) (hb : hexDigit b = some y) : pairByte s k = 16 * x + y := by
  simp [pairByte, h0, h1, ha, hb]

theorem drop_take_two (s : List Char) (i : Nat) (h : i + 1 < s.length) :
    (s.drop i).take 2 = [s[i], s[i + 1]] := by
  induction s generalizing i with
  | nil => simp at h
  | cons c cs ih =>
    cases i with
    | zero =>
      cases cs with
      | nil => simp at h
      | cons d ds => simp
    | succ j =>
      have hj : j + 1 < cs.length := by simpa using h
      simpa using ih j hj

/-- Invariant of the conversion loop on a 32-digit string: entered at the even
index `2 * j`, it ends normally, keeps the type tag and the bytes of the pairs before `j`,
and writes the byte of every pair from `j` on at the mirrored position. -/
theorem uuidLoop_spec (s : List Char) (hlen : s.length = 32)
    (hhex : ∀ c ∈ s, isHex c = true) (n j : Nat) (hj : j + n = 16) (result : ble_uuid_any_t) :
    ∃ r, uuidLoop s (2 * j) result = Ret.ok r ∧ r.type = result.type ∧
      (∀ k, j ≤ k → k < 16 → r.value[15 - k]? = some (pairByte s k)) ∧
      (∀ k, k < j → r.value[15 - k]? = result.value[15 - k]?) := by
  induction n generalizing j result with
  | zero =>
    have : j = 16 := by omega
    subst this
    refine ⟨result, ?_, rfl, ?_, ?_⟩
    · rw [uuidLoop]; simp [hlen]
    · intro k h1 h2; omega
    · intro k _; rfl
  | succ n ih =>
    have hlt : 2 * j + 1 < s.length := by omega
    have hlt0 : 2 * j < s.length := by omega
    obtain ⟨x, hx⟩ := (isHex_iff _).1 (hhex s[2 * j] (List.getElem_mem _))
    obtain ⟨y, hy⟩ := (isHex_iff _).1 (hhex s[2 * j + 1] (List.getElem_mem _))
    obtain ⟨r, hr, ht, hnew, hold⟩ := ih (j + 1) (by omega)
      (result.setValue (15 - 2 * j / 2) (16 * x + y))
    refine ⟨r, ?_, ?_, ?_, ?_⟩
    · rw [uuidLoop, if_pos hlt0, drop_take_two s (2 * j) hlt,
        hexStringToUint8_pair _ _ x y 0 hx hy]
      simpa [ESP_OK, Nat.mul_add] using hr
    · simpa [ble_uuid_any_t.setValue] using ht
    · intro k h1 h2
      rcases Nat.eq_or_lt_of_le h1 with h | h
      · subst h
        rw [hold j (by omega)]
        have hb : pairByte s j = 16 * x + y :=
          pairByte_eq s j _ _ x y (List.getElem?_eq_getElem hlt0) (List.getElem?_eq_getElem hlt)
            hx hy
        have hsz := result.size
        simp [ble_uuid_any_t.setValue, hb, List.getElem?_set, hsz]
        omega
      · exact hnew k (by omega) h2
    · intro k hk
      rw [hold k (by omega)]
      have hne : 15 - j ≠ 15 - k := by omega
      simp [ble_uuid_any_t.setValue, List.getElem?_set, hne]

/-- C1: a string that is 32 hexadecimal digits once its dashes are removed is converted
with `ESP_OK` and type tag 128, and for every `k` below 16 the byte `value[15 - k]` is
`16 * x + y`, where `x` and `y` are the values of the digits at positions `2k` and `2k+1`
of the stripped string. -/
theorem uuidStringToUuid_reversed_bytes (uuid : String) (result : ble_uuid_any_t)
    (hlen : (removeDashes uuid.toList).length = 32)
    (hhex : ∀ c ∈ removeDashes uuid.toList, isHex c = true) :
    ∃ r, uuidStringToUuid uuid result = Ret.ok (ESP_OK, r) ∧ r.type = BLE_UUID_TYPE_128 ∧
      ∀ k, k < 16 → ∃ a b x y,
        (removeDashes uuid.toList)[2 * k]? = some a ∧
        (removeDashes uuid.toList)[2 * k + 1]? = some b ∧
        hexDigit a = some x ∧ hexDigit b = some y ∧
        r.value[15 - k]? = some (16 * x + y) := by
  obtain ⟨r, hr, ht, hnew, -⟩ :=
    uuidLoop_spec _ hlen hhex 16 0 rfl (result.setType BLE_UUID_TYPE_128)
  refine ⟨r, ?_, ?_, ?_⟩
  · simp only [uuidStringToUuid, if_pos hlen]
    rw [show (0 : Nat) = 2 * 0 from rfl, hr]
  · simpa [ble_uuid_any_t.setType] using ht
  · intro k hk
    have h0 : 2 * k < (removeDashes uuid.toList).length := by omega
    have h1 : 2 * k + 1 < (removeDashes uuid.toList).length := by omega
    obtain ⟨x, hx⟩ := (isHex_iff _).1 (hhex _ (List.getElem_mem h0))
    obtain ⟨y, hy⟩ := (isHex_iff _).1 (hhex _ (List.getElem_mem h1))
    refine ⟨_, _, x, y, List.getElem?_eq_getElem h0, List.getElem?_eq_getElem h1, hx, hy, ?_⟩
    rw [hnew k (Nat.zero_le k) hk,
      pairByte_eq _ k _ _ x y (List.getElem?_eq_getElem h0) (List.getElem?_eq_getElem h1) hx hy]

/-- C1, instance: the canonical string `00112233-4455-6677-8899-aabbccddeeff`. -/
theorem uuidStringToUuid_reversed_bytes_witness :
    (removeDashes "00112233-4455-6677-8899-aabbccddeeff".toList).length = 32 ∧
    (∀ c ∈ removeDashes "00112233-4455-6677-8899-aabbccddeeff".toList, isHex c = true) ∧
    ∃ r, uuidStringToUuid "00112233-4455-6677-8899-aabbccddeeff" zeroUuid = Ret.ok (ESP_OK, r) ∧
      r.type = BLE_UUID_TYPE_128 ∧
      ∀ k, k < 16 → ∃ a b x y,
        (removeDashes "00112233-4455-6677-8899-aabbccddeeff".toList)[2 * k]? = some a ∧
        (removeDashes "00112233-4455-6677-8899-aabbccddeeff".toList)[2 * k + 1]? = some b ∧
        hexDigit a = some x ∧ hexDigit b = some y ∧
        r.value[15 - k]? = some (16 * x + y) :=
  ⟨by decide, by decide,
    uuidStringToUuid_reversed_bytes "00112233-4455-6677-8899-aabbccddeeff" zeroUuid
      (by decide) (by decide)⟩

theorem hexChar_hexDigit (c : Char) (x : Nat) (hc : hexDigit c = some x) :
    hexChar x = c.toLower := by
  unfold hexDigit at hc
  unfold hexChar Char.toLower
  split_ifs at hc with h1 h2 h3
  · simp only [Option.some.injEq] at hc
    have e : 48 + x = c.toNat := by omega
    rw [if_pos (by omega), if_neg (by omega), e, Char.ofNat_toNat]
  · simp only [Option.some.injEq] at hc
    have e : 87 + x = c.toNat := by omega
    rw [if_neg (by omega), if_neg (by omega), e, Char.ofNat_toNat]
  · simp only [Option.some.injEq] at hc
    have e : 87 + x = c.toNat + 32 := by omega
    rw [if_neg (by omega), if_pos (by omega), e]

theorem hexDigit_toLower (c : Char) : hexDigit c.toLower = hexDigit c := by
  by_cases hu : 65 ≤ c.toNat ∧ c.toNat ≤ 90
  · have hl : c.toLower = Char.ofNat (c.toNat + 32) := by
      unfold Char.toLower; rw [if_pos (by omega)]
    rw [hl]
    conv_rhs => rw [← Char.ofNat_toNat c]
    obtain ⟨h1, h2⟩ := hu
    generalize c.toNat = n at h1 h2 ⊢
    interval_cases n <;> decide
  · have hl : c.toLower = c := by
      unfold Char.toLower; rw [if_neg (by omega)]
    rw [hl]

theorem pairBytes_getElem (k : Nat) : ∀ s : List Char, 2 * k + 1 < s.length →
    (pairBytes s)[k]? = some (pairByte s k) := by
  induction k with
  | zero =>
    intro s h
    match s, h with
    | a :: b :: r, _ => simp [pairBytes, pairByte]
  | succ k ih =>
    intro s h
    match s, h with
    | a :: b :: r, h =>
      have hr : 2 * k + 1 < r.length := by simp at h; omega
      have e1 : 2 * (k + 1) = 2 * k + 1 + 1 := by omega
      have e2 : 2 * (k + 1) + 1 = 2 * k + 1 + 1 + 1 := by omega
      have hb : pairByte (a :: b :: r) (k + 1) = pairByte r k := by
        simp only [pairByte, e1, e2, List.getElem?_cons_succ]
      simpa [pairBytes, hb] using ih r hr

theorem pairBytes_length (n : Nat) : ∀ s : List Char, s.length = 2 * n →
    (pairBytes s).length = n := by
  induction n with
  | zero =>
    intro s h
    have : s = [] := List.length_eq_zero.1 (by omega)
    subst this; rfl
  | succ n ih =>
    intro s h
    match s, h with
    | a :: b :: r, h =>
      have hr : r.length = 2 * n := by simp at h; omega
      simp [pairBytes, ih r hr]

theorem hexText_pairBytes (n : Nat) : ∀ s : List Char, s.length = 2 * n →
    (∀ c ∈ s, isHex c = true) → hexText (pairBytes s) = s.map Char.toLower := by
  induction n with
  | zero =>
    intro s h _
    have : s = [] := List.length_eq_zero.1 (by omega)
    subst this; rfl
  | succ n ih =>
    intro s h hhex
    match s, h with
    | a :: b :: r, h =>
      have hr : r.length = 2 * n := by simp at h; omega
      obtain ⟨x, hx⟩ := (isHex_iff a).1 (hhex a (by simp))
      obtain ⟨y, hy⟩ := (isHex_iff b).1 (hhex b (by simp))
      have hxl := hexDigit_lt a x hx
      have hyl := hexDigit_lt b y hy
      have hd : (16 * x + y) / 16 = x := by omega
      have hm : (16 * x + y) % 16 = y := by omega
      have hrest := ih r hr (fun c hc => hhex c (by simp [hc]))
      simp [pairBytes, hexText, hx, hy, hd, hm, hexChar_hexDigit a x hx,
        hexChar_hexDigit b y hy, hrest]

theorem pairBytes_toLower : ∀ (n : Nat) (s : List Char), s.length ≤ n →
    pairBytes (s.map Char.toLower) = pairBytes s := by
  intro n
  induction n using Nat.strong_induction_on with
  | _ n ih =>
    intro s h
    match s, h with
    | [], _ => rfl
    | [a], _ => rfl
    | a :: b :: r, h =>
      have hr : r.length ≤ n - 2 := by simp at h; omega
      have hn : n - 2 < n := by simp at h; omega
      simp [pairBytes, hexDigit_toLower, ih (n - 2) hn r hr]

/-- On a 32-digit string the conversion succeeds and the stored bytes, read backwards,
are the bytes of the digit pairs in textual order. -/
theorem uuidStringToUuid_value (uuid : String) (result : ble_uuid_any_t)
    (hlen : (removeDashes uuid.toList).length = 32)
    (hhex : ∀ c ∈ removeDashes uuid.toList, isHex c = true) :
    ∃ r, uuidStringToUuid uuid result = Ret.ok (ESP_OK, r) ∧ r.type = BLE_UUID_TYPE_128 ∧
      r.value.reverse = pairBytes (removeDashes uuid.toList) := by
  obtain ⟨r, hr, ht, hnew, -⟩ :=
    uuidLoop_spec _ hlen hhex 16 0 rfl (result.setType BLE_UUID_TYPE_128)
  refine ⟨r, ?_, ?_, ?_⟩
  · simp only [uuidStringToUuid, if_pos hlen]
    rw [show (0 : Nat) = 2 * 0 from rfl, hr]
  · simpa [ble_uuid_any_t.setType] using ht
  · have hpl := pairBytes_length 16 _ hlen
    apply List.ext_getElem?
    intro k
    by_cases hk : k < 16
    · rw [List.getElem?_reverse (by rw [r.size]; exact hk), r.size,
        pairBytes_getElem k _ (by omega)]
      exact hnew k (Nat.zero_le k) hk
    · rw [List.getElem?_eq_none (by simp [r.size]; omega),
        List.getElem?_eq_none (by rw [hpl]; omega)]

theorem wellFormed_iff (uuid : String) : wellFormed uuid = true ↔
    (removeDashes uuid.toList).length = 32 ∧ ∀ c ∈ removeDashes uuid.toList, isHex c = true := by
  simp [wellFormed, List.all_eq_true]

theorem ble_uuid_any_t.eq_of (a b : ble_uuid_any_t) (ht : a.type = b.type)
    (hv : a.value = b.value) : a = b := by
  cases a; cases b; simp_all

/-- C2: for well-formed texts `u` and `v` (32 hexadecimal digits after dash removal, any
letter case), decoding the identifier encoded from `u` gives `normalize u`, and `u` and
`v` have the same encoding exactly when their normalised forms are equal. -/
theorem uuid_roundtrip (u v : String) (r1 r2 : ble_uuid_any_t)
    (hu : wellFormed u = true) (hv : wellFormed v = true) :
    (∃ r, uuidStringToUuid u r1 = Ret.ok (ESP_OK, r) ∧ decode r = normalize u) ∧
    (uuidStringToUuid u r1 = uuidStringToUuid v r2 ↔ normalize u = normalize v) := by
  obtain ⟨hul, huh⟩ := (wellFormed_iff u).1 hu
  obtain ⟨hvl, hvh⟩ := (wellFormed_iff v).1 hv
  obtain ⟨ru, hru, htu, hvu⟩ := uuidStringToUuid_value u r1 hul huh
  obtain ⟨rv, hrv, htv, hvv⟩ := uuidStringToUuid_value v r2 hvl hvh
  have hdu : decode ru = normalize u := by
    simp only [decode, normalize, hvu]
    exact hexText_pairBytes 16 _ hul huh
  have hdv : decode rv = normalize v := by
    simp only [decode, normalize, hvv]
    exact hexText_pairBytes 16 _ hvl hvh
  refine ⟨⟨ru, hru, hdu⟩, ?_, ?_⟩
  · intro h
    rw [hru, hrv] at h
    have hr : ru = rv := by
      injection h with h
      exact (Prod.mk.inj h).2
    rw [← hdu, ← hdv, hr]
  · intro h
    have hp : pairBytes (removeDashes u.toList) = pairBytes (removeDashes v.toList) := by
      rw [← pairBytes_toLower _ _ (le_refl _), ← pairBytes_toLower _ (removeDashes v.toList) (le_refl _)]
      exact congrArg pairBytes h
    have hval : ru.value = rv.value := by
      have := hvu.trans (hp.trans hvv.symm)
      exact List.reverse_injective this
    rw [hru, hrv, ble_uuid_any_t.eq_of ru rv (htu.trans htv.symm) hval]

/-- C2, instance: an upper-case dashed text and the same identifier in lower case
without dashes. -/
theorem uuid_roundtrip_witness :
    wellFormed "00112233-4455-6677-8899-AABBCCDDEEFF" = true ∧
    wellFormed "00112233445566778899aabbccddeeff" = true ∧
    (∃ r, uuidStringToUuid "00112233-4455-6677-8899-AABBCCDDEEFF" zeroUuid = Ret.ok (ESP_OK, r) ∧
      decode r = normalize "00112233-4455-6677-8899-AABBCCDDEEFF") ∧
    (uuidStringToUuid "00112233-4455-6677-8899-AABBCCDDEEFF" zeroUuid =
        uuidStringToUuid "00112233445566778899aabbccddeeff" zeroUuid ↔
      normalize "00112233-4455-6677-8899-AABBCCDDEEFF" =
        normalize "00112233445566778899aabbccddeeff") :=
  ⟨by decide, by decide,
    uuid_roundtrip "00112233-4455-6677-8899-AABBCCDDEEFF" "00112233445566778899aabbccddeeff"
      zeroUuid zeroUuid (by decide) (by decide)⟩

theorem uuidLoop_step (s : List Char) (i v : Nat) (r : ble_uuid_any_t) (h : i < s.length)
    (hv : hexStringToUint8 ((s.drop i).take 2) 0 = Ret.ok (ESP_OK, v)) :
    uuidLoop s i r = uuidLoop s (i + 2) (r.setValue (15 - i / 2) v) := by
  rw [uuidLoop, if_pos h, hv]
  simp

theorem uuidLoop_done (s : List Char) (i : Nat) (r : ble_uuid_any_t) (h : ¬ i < s.length) :
    uuidLoop s i r = Ret.ok r := by
  rw [uuidLoop, if_neg h]

/-- C3, evaluation at the failing input: the stripped text `1g` followed by thirty zeros
has 32 characters and `g` is no hexadecimal digit, yet the conversion returns `ESP_OK`
with an identifier whose last byte is `0x01`. -/
theorem uuidStringToUuid_accepts_non_hex :
    (removeDashes "1g000000000000000000000000000000".toList).length = 32 ∧
    wellFormed "1g000000000000000000000000000000" = false ∧
    ∃ r, uuidStringToUuid "1g000000000000000000000000000000" zeroUuid = Ret.ok (ESP_OK, r) ∧
      r.type = BLE_UUID_TYPE_128 ∧
      r.value = [0, 0, 0, 0, 0, 0, 0, 0, 0, 0, 0, 0, 0, 0, 0, 1] := by
  refine ⟨by decide, by decide, ?_⟩
  have hs : removeDashes "1g000000000000000000000000000000".toList =
      ['1', 'g', '0', '0', '0', '0', '0', '0', '0', '0', '0', '0', '0', '0', '0', '0',
       '0', '0', '0', '0', '0', '0', '0', '0', '0', '0', '0', '0', '0', '0', '0', '0'] := by
    decide
  simp only [uuidStringToUuid, hs]
  rw [if_pos (by decide), uuidLoop_step _ _ 1 _ (by decide) (by decide)]
  iterate 15 rw [uuidLoop_step _ _ 0 _ (by decide) (by decide)]
  rw [uuidLoop_done _ _ _ (by decide)]
  exact ⟨_, rfl, rfl, rfl⟩

/-- C4, counterexample: the 16-bit short form `1234` and the malformed five-character
text `12345` end with the same status, `ESP_FAIL`. -/
theorem uuidStringToUuid_short_form_same_status :
    uuidStringToUuid "1234" zeroUuid = Ret.ok (ESP_FAIL, zeroUuid) ∧
    uuidStringToUuid "12345" zeroUuid = Ret.ok (ESP_FAIL, zeroUuid) ∧
    uuidStringToUuid "12345678" zeroUuid = Ret.ok (ESP_FAIL, zeroUuid) := by
  refine ⟨?_, ?_, ?_⟩ <;>
  · simp only [uuidStringToUuid]
    rw [if_neg (by decide)]
    simp

/-- C4, amended: when the stripped text has 4 or 8 characters the conversion returns
`ESP_FAIL` and hands the result back unwritten; every other text whose stripped length
is not 32 gets the same status. -/
theorem uuidStringToUuid_short_form_fails (uuid other : String) (result : ble_uuid_any_t)
    (h : (removeDashes uuid.toList).length = 4 ∨ (removeDashes uuid.toList).length = 8)
    (ho : (removeDashes other.toList).length ≠ 32) :
    uuidStringToUuid uuid result = Ret.ok (ESP_FAIL, result) ∧
    uuidStringToUuid other result = Ret.ok (ESP_FAIL, result) := by
  have hu : (removeDashes uuid.toList).length ≠ 32 := by omega
  constructor
  · simp only [uuidStringToUuid]
    rw [if_neg hu]
    simp
  · simp only [uuidStringToUuid]
    rw [if_neg ho]
    simp

/-- C4, instance: the short form `12-34` against the malformed text `123`. -/
theorem uuidStringToUuid_short_form_fails_witness :
    ((removeDashes "12-34".toList).length = 4 ∨ (removeDashes "12-34".toList).length = 8) ∧
    (removeDashes "123".toList).length ≠ 32 ∧
    uuidStringToUuid "12-34" zeroUuid = Ret.ok (ESP_FAIL, zeroUuid) ∧
    uuidStringToUuid "123" zeroUuid = Ret.ok (ESP_FAIL, zeroUuid) :=
  ⟨by decide, by decide,
    uuidStringToUuid_short_form_fails "12-34" "123" zeroUuid (by decide) (by decide)⟩

/-! ## Flags -/

/-- C7, counterexample: a descriptor without subscribe handler is compiled by
`populateGattCharacteristicDefinition` with `NOTIFY` set, and a descriptor with one is
compiled by `createCharacteristicDefinition` without it. -/
theorem notify_flag_ignores_subscription :
    sampleReadable.supportsSubscription = false ∧
    hasFlag sampleReadable.populateGattCharacteristicDefinition.2.flags
      BLE_GATT_CHR_F_NOTIFY = true ∧
    sampleWriteOnly.supportsSubscription = true ∧
    hasFlag (BleAdvertiser.createCharacteristicDefinition sampleEnv
      (sampleWorld sampleReadable) sampleWriteOnly).2.flags BLE_GATT_CHR_F_NOTIFY = false := by
  decide

/-- C7, amended: in the entry compiled from any descriptor, by either builder, `READ` is
set iff the descriptor is readable, `WRITE` iff it is writable and write-acknowledged,
`WRITE_NO_RSP` iff it is writable and not write-acknowledged, and no bit outside the
four known flags is set; `NOTIFY` is set in every entry of
`populateGattCharacteristicDefinition` and in no entry of
`createCharacteristicDefinition`, whatever the subscribe handler. -/
theorem compiled_flags (env : Env) (w : World) (c : BleCharacteristic) :
    (∀ flags, flags = c.populateGattCharacteristicDefinition.2.flags ∨
        flags = (BleAdvertiser.createCharacteristicDefinition env w c).2.flags →
      (hasFlag flags BLE_GATT_CHR_F_READ = true ↔ c.read = true) ∧
      (hasFlag flags BLE_GATT_CHR_F_WRITE = true ↔
        c.write = true ∧ c.acknowledgeWrites = true) ∧
      (hasFlag flags BLE_GATT_CHR_F_WRITE_NO_RSP = true ↔
        c.write = true ∧ c.acknowledgeWrites = false) ∧
      ¬ (hasFlag flags BLE_GATT_CHR_F_WRITE = true ∧
        hasFlag flags BLE_GATT_CHR_F_WRITE_NO_RSP = true) ∧
      flags &&& knownFlags = flags) ∧
    hasFlag c.populateGattCharacteristicDefinition.2.flags BLE_GATT_CHR_F_NOTIFY = true ∧
    hasFlag (BleAdvertiser.createCharacteristicDefinition env w c).2.flags
      BLE_GATT_CHR_F_NOTIFY = false := by
  obtain ⟨u, ow, ord, os, ack, rd, wr, hd⟩ := c
  refine ⟨?_, ?_, ?_⟩
  · rintro flags (h | h) <;> subst h <;>
      cases ack <;> cases rd <;> cases wr <;>
      simp [BleCharacteristic.populateGattCharacteristicDefinition,
        BleAdvertiser.createCharacteristicDefinition] <;> decide
  · cases ack <;> cases rd <;> cases wr <;>
      simp [BleCharacteristic.populateGattCharacteristicDefinition] <;> decide
  · cases ack <;> cases rd <;> cases wr <;>
      simp [BleAdvertiser.createCharacteristicDefinition] <;> decide

/-! ## Access dispatch -/

theorem find?_none_of_no_match (mem : Nat → Nat) (attr : Nat)
    (m : List (Nat × BleCharacteristic)) (h : ∀ e ∈ m, mem e.1 ≠ attr) :
    m.find? (fun e => mem e.1 = attr) = none := by
  rw [List.find?_eq_none]
  intro e he
  simpa using h e he

theorem find?_of_distinct_handles (mem : Nat → Nat) (attr : Nat) :
    ∀ (m : List (Nat × BleCharacteristic)) (e : Nat × BleCharacteristic),
      (m.map (fun x => mem x.1)).Nodup → e ∈ m → mem e.1 = attr →
      m.find? (fun x => mem x.1 = attr) = some e := by
  intro m
  induction m with
  | nil => intro e _ he; simp at he
  | cons x xs ih =>
    intro e hnd he hattr
    rw [List.map_cons, List.nodup_cons] at hnd
    rcases List.mem_cons.1 he with h | h
    · subst h
      simp [List.find?_cons, hattr]
    · have hx : mem x.1 ≠ attr := by
        intro hx
        apply hnd.1
        rw [hx, ← hattr]
        exact List.mem_map_of_mem (fun x => mem x.1) h
      simp only [List.find?_cons, hx, decide_False]
      exact ih e hnd.2 h hattr

/-- C8: when the attribute handle equals the content of no registered handle cell, a
`ReadCharacteristic` access ends with `BLE_ATT_ERR_UNLIKELY`, makes no handler call and
leaves the response chain as it was; the per-characteristic handler does the same when
the handle is not the one of its characteristic. -/
theorem read_unknown_handle (env : Env) (w : World) (conn_handle attr_handle : Nat)
    (ctxt : ble_gatt_access_ctxt) (arg : BleCharacteristic)
    (hop : ctxt.op = BLE_GATT_ACCESS_OP_READ_CHR)
    (hreg : ∀ e ∈ w.characteristicHandlesToCharacteristics, w.mem e.1 ≠ attr_handle)
    (harg : w.mem arg.characteristicHandle ≠ attr_handle) :
    BleAdvertiser.characteristicAccessHandler env w conn_handle attr_handle ctxt =
      ⟨Ret.ok BLE_ATT_ERR_UNLIKELY, ctxt.om, []⟩ ∧
    BleCharacteristic.characteristicAccessHandler env w.mem conn_handle attr_handle ctxt arg =
      ⟨Ret.ok BLE_ATT_ERR_UNLIKELY, ctxt.om, []⟩ := by
  constructor
  · simp only [BleAdvertiser.characteristicAccessHandler, hop, if_true,
      find?_none_of_no_match w.mem attr_handle _ hreg]
  · simp only [BleCharacteristic.characteristicAccessHandler, hop, if_true]
    rw [if_pos harg]

/-- C8, instance: the readable sample is registered with handle 7 and the access names
handle 8. -/
theorem read_unknown_handle_witness :
    sampleRead.op = BLE_GATT_ACCESS_OP_READ_CHR ∧
    (∀ e ∈ (sampleWorld sampleReadable).characteristicHandlesToCharacteristics,
      (sampleWorld sampleReadable).mem e.1 ≠ 8) ∧
    (sampleWorld sampleReadable).mem sampleReadable.characteristicHandle ≠ 8 ∧
    BleAdvertiser.characteristicAccessHandler sampleEnv (sampleWorld sampleReadable) 1 8
        sampleRead = ⟨Ret.ok BLE_ATT_ERR_UNLIKELY, sampleRead.om, []⟩ ∧
    BleCharacteristic.characteristicAccessHandler sampleEnv (sampleWorld sampleReadable).mem 1 8
        sampleRead sampleReadable = ⟨Ret.ok BLE_ATT_ERR_UNLIKELY, sampleRead.om, []⟩ :=
  ⟨rfl, by simp [sampleWorld], by decide,
    read_unknown_handle sampleEnv (sampleWorld sampleReadable) 1 8 sampleRead sampleReadable rfl
      (by simp [sampleWorld]) (by decide)⟩

/-- C9: with pairwise distinct registered handles, a `ReadCharacteristic` access on the
handle of a registered characteristic that has a read handler calls that handler once
and nothing else; if the transport accepts the append (return code 0, the bytes added to
the chain) the status is 0 and the response holds exactly the handler's bytes after
what it held, and if the transport refuses the status is
`BLE_ATT_ERR_INSUFFICIENT_RES`. The per-characteristic handler behaves in the same way
for its own characteristic. -/
theorem read_registered_handle (env : Env) (w : World) (conn_handle attr_handle : Nat)
    (ctxt : ble_gatt_access_ctxt) (key : Nat) (c arg : BleCharacteristic)
    (onRead argRead : Unit → List Nat)
    (hop : ctxt.op = BLE_GATT_ACCESS_OP_READ_CHR)
    (hdistinct : (w.characteristicHandlesToCharacteristics.map (fun e => w.mem e.1)).Nodup)
    (hreg : (key, c) ∈ w.characteristicHandlesToCharacteristics)
    (hkey : w.mem key = attr_handle)
    (hread : c.onRead = some onRead)
    (harg : w.mem arg.characteristicHandle = attr_handle)
    (hargRead : arg.onRead = some argRead) :
    ((BleAdvertiser.characteristicAccessHandler env w conn_handle attr_handle ctxt).calls =
        [Call.onRead key] ∧
      ((env.os_mbuf_append ctxt.om (onRead ())).1 = 0 ∧
          (env.os_mbuf_append ctxt.om (onRead ())).2.payload = ctxt.om.payload ++ onRead () →
        (BleAdvertiser.characteristicAccessHandler env w conn_handle attr_handle ctxt).ret =
          Ret.ok 0 ∧
        (BleAdvertiser.characteristicAccessHandler env w conn_handle attr_handle ctxt).om.payload
          = ctxt.om.payload ++ onRead ()) ∧
      ((env.os_mbuf_append ctxt.om (onRead ())).1 ≠ 0 →
        (BleAdvertiser.characteristicAccessHandler env w conn_handle attr_handle ctxt).ret =
          Ret.ok BLE_ATT_ERR_INSUFFICIENT_RES)) ∧
    ((BleCharacteristic.characteristicAccessHandler env w.mem conn_handle attr_handle ctxt
        arg).calls = [Call.onRead arg.characteristicHandle] ∧
      ((env.os_mbuf_append ctxt.om (argRead ())).1 = 0 ∧
          (env.os_mbuf_append ctxt.om (argRead ())).2.payload = ctxt.om.payload ++ argRead () →
        (BleCharacteristic.characteristicAccessHandler env w.mem conn_handle attr_handle ctxt
          arg).ret = Ret.ok 0 ∧
        (BleCharacteristic.characteristicAccessHandler env w.mem conn_handle attr_handle ctxt
          arg).om.payload = ctxt.om.payload ++ argRead ()) ∧
      ((env.os_mbuf_append ctxt.om (argRead ())).1 ≠ 0 →
        (BleCharacteristic.characteristicAccessHandler env w.mem conn_handle attr_handle ctxt
          arg).ret = Ret.ok BLE_ATT_ERR_INSUFFICIENT_RES)) := by
  have hfind := find?_of_distinct_handles w.mem attr_handle _ (key, c) hdistinct hreg hkey
  have h1 : BleAdvertiser.characteristicAccessHandler env w conn_handle attr_handle ctxt =
      ⟨Ret.ok (if (env.os_mbuf_append ctxt.om (onRead ())).1 = 0 then 0
          else BLE_ATT_ERR_INSUFFICIENT_RES),
        (env.os_mbuf_append ctxt.om (onRead ())).2, [Call.onRead key]⟩ := by
    simp only [BleAdvertiser.characteristicAccessHandler, hop, if_true, hfind, hread]
  have h2 : BleCharacteristic.characteristicAccessHandler env w.mem conn_handle attr_handle
      ctxt arg =
      ⟨Ret.ok (if (env.os_mbuf_append ctxt.om (argRead ())).1 = 0 then 0
          else BLE_ATT_ERR_INSUFFICIENT_RES),
        (env.os_mbuf_append ctxt.om (argRead ())).2,
        [Call.onRead arg.characteristicHandle]⟩ := by
    simp only [BleCharacteristic.characteristicAccessHandler, hop, if_true, hargRead]
    rw [if_neg (by simpa using harg)]
  rw [h1, h2]
  refine ⟨⟨rfl, ?_, ?_⟩, ⟨rfl, ?_, ?_⟩⟩
  · rintro ⟨h0, hp⟩; exact ⟨by simp [h0], hp⟩
  · intro h0; simp [h0]
  · rintro ⟨h0, hp⟩; exact ⟨by simp [h0], hp⟩
  · intro h0; simp [h0]

/-- C9, instance: the characteristic whose read handler returns `0x01, 0x02`, registered
with handle 7: the access on handle 7 answers status 0 with the bytes `0x01, 0x02`, and
the access on handle 8 answers `BLE_ATT_ERR_UNLIKELY`. -/
theorem read_registered_handle_witness :
    ((BleAdvertiser.characteristicAccessHandler sampleEnv (sampleWorld sampleReadable) 1 7
        sampleRead).calls = [Call.onRead 100] ∧
      (BleAdvertiser.characteristicAccessHandler sampleEnv (sampleWorld sampleReadable) 1 7
        sampleRead).ret = Ret.ok 0 ∧
      (BleAdvertiser.characteristicAccessHandler sampleEnv (sampleWorld sampleReadable) 1 7
        sampleRead).om.payload = [0x01, 0x02] ∧
      (BleAdvertiser.characteristicAccessHandler sampleEnv (sampleWorld sampleReadable) 1 8
        sampleRead).ret = Ret.ok BLE_ATT_ERR_UNLIKELY) ∧
    ((BleCharacteristic.characteristicAccessHandler sampleEnv (sampleWorld sampleReadable).mem
        1 7 sampleRead sampleReadable).calls = [Call.onRead 100] ∧
      (BleCharacteristic.characteristicAccessHandler sampleEnv (sampleWorld sampleReadable).mem
        1 7 sampleRead sampleReadable).ret = Ret.ok 0 ∧
      (BleCharacteristic.characteristicAccessHandler sampleEnv (sampleWorld sampleReadable).mem
        1 7 sampleRead sampleReadable).om.payload = [0x01, 0x02] ∧
      (BleCharacteristic.characteristicAccessHandler sampleEnv (sampleWorld sampleReadable).mem
        1 8 sampleRead sampleReadable).ret = Ret.ok BLE_ATT_ERR_UNLIKELY) := by
  have h := read_registered_handle sampleEnv (sampleWorld sampleReadable) 1 7 sampleRead 100
    sampleReadable sampleReadable (fun _ => [0x01, 0x02]) (fun _ => [0x01, 0x02]) rfl
    (by simp [sampleWorld]) (by simp [sampleWorld]) rfl rfl rfl rfl
  obtain ⟨⟨a1, a2, -⟩, ⟨b1, b2, -⟩⟩ := h
  have a3 := a2 ⟨rfl, rfl⟩
  have b3 := b2 ⟨rfl, rfl⟩
  exact ⟨⟨a1, a3.1, a3.2, rfl⟩, ⟨b1, b3.1, b3.2, rfl⟩⟩

/-- C10, counterexample: for the sample without read handler, registered with handle 7,
the per-characteristic handler answers a read of handle 7 with the very status it gives
for the unregistered handle 8, and the registry dispatcher returns no status at all: the
call of the empty handler throws. -/
theorem read_without_handler_same_status :
    sampleWriteOnly.onRead = none ∧
    (sampleWorld sampleWriteOnly).mem sampleWriteOnly.characteristicHandle = 7 ∧
    (BleCharacteristic.characteristicAccessHandler sampleEnv (sampleWorld sampleWriteOnly).mem
        1 7 sampleRead sampleWriteOnly).ret =
      (BleCharacteristic.characteristicAccessHandler sampleEnv (sampleWorld sampleWriteOnly).mem
        1 8 sampleRead sampleWriteOnly).ret ∧
    (BleAdvertiser.characteristicAccessHandler sampleEnv (sampleWorld sampleWriteOnly) 1 7
        sampleRead).ret = Ret.thrown Exc.bad_function_call := by
  refine ⟨rfl, rfl, rfl, rfl⟩

/-- C10, amended: for a characteristic without read handler,
`BleCharacteristic::characteristicAccessHandler` answers a `ReadCharacteristic` access on
the characteristic's own handle with `BLE_ATT_ERR_UNLIKELY`, calls no handler and leaves
the response chain alone; it gives the same status for any other handle. -/
theorem read_without_handler (env : Env) (mem : Nat → Nat)
    (connectionHandle attributeHandle other : Nat) (ctxt : ble_gatt_access_ctxt)
    (arg : BleCharacteristic)
    (hop : ctxt.op = BLE_GATT_ACCESS_OP_READ_CHR)
    (hown : mem arg.characteristicHandle = attributeHandle)
    (hother : mem arg.characteristicHandle ≠ other)
    (hread : arg.onRead = none) :
    BleCharacteristic.characteristicAccessHandler env mem connectionHandle attributeHandle
        ctxt arg = ⟨Ret.ok BLE_ATT_ERR_UNLIKELY, ctxt.om, []⟩ ∧
    (BleCharacteristic.characteristicAccessHandler env mem connectionHandle other
        ctxt arg).ret = Ret.ok BLE_ATT_ERR_UNLIKELY := by
  constructor
  · simp only [BleCharacteristic.characteristicAccessHandler, hop, if_true, hread]
    rw [if_neg (by simpa using hown)]
  · simp only [BleCharacteristic.characteristicAccessHandler, hop, if_true]
    rw [if_pos hother]

/-- C10, instance: the sample without read handler, read on its handle 7 and on 8. -/
theorem read_without_handler_witness :
    sampleRead.op = BLE_GATT_ACCESS_OP_READ_CHR ∧
    (sampleWorld sampleWriteOnly).mem sampleWriteOnly.characteristicHandle = 7 ∧
    (sampleWorld sampleWriteOnly).mem sampleWriteOnly.characteristicHandle ≠ 8 ∧
    sampleWriteOnly.onRead = none ∧
    BleCharacteristic.characteristicAccessHandler sampleEnv (sampleWorld sampleWriteOnly).mem
        1 7 sampleRead sampleWriteOnly = ⟨Ret.ok BLE_ATT_ERR_UNLIKELY, sampleRead.om, []⟩ ∧
    (BleCharacteristic.characteristicAccessHandler sampleEnv (sampleWorld sampleWriteOnly).mem
        1 8 sampleRead sampleWriteOnly).ret = Ret.ok BLE_ATT_ERR_UNLIKELY :=
  ⟨rfl, rfl, by decide, rfl,
    read_without_handler sampleEnv (sampleWorld sampleWriteOnly).mem 1 7 8 sampleRead
      sampleWriteOnly rfl rfl (by decide) rfl⟩

/-! ## Table compilation -/

/-- Invariant rule for `forLoop`. -/
theorem forLoop_invariant {σ : Type} (n : Nat) (body : (index : Nat) → index < n → σ → σ)
    (P : Nat → σ → Prop)
    (hstep : ∀ k (hk : k < n) s, P k s → P (k + 1) (body k hk s)) :
    ∀ (d i : Nat) (s : σ), i + d = n → P i s → P n (forLoop n body i s) := by
  intro d
  induction d with
  | zero =>
    intro i s hi hP
    have : i = n := by omega
    subst this
    rw [forLoop, dif_neg (Nat.lt_irrefl _)]
    exact hP
  | succ d ih =>
    intro i s hi hP
    have hlt : i < n := by omega
    rw [forLoop, dif_pos hlt]
    exact ih (i + 1) _ (by omega) (hstep i hlt s hP)

theorem take_set_succ {α : Type} (d : α) : ∀ (l : List α) (k : Nat), k < l.length →
    (l.set k d).take (k + 1) = l.take k ++ [d] := by
  intro l
  induction l with
  | nil => intro k h; simp at h
  | cons x xs ih =>
    intro k h
    cases k with
    | zero => simp
    | succ k =>
      have hk : k < xs.length := by simpa using h
      simp [ih k hk]

theorem take_succ_getElem {α : Type} (l : List α) (k : Nat) (h : k < l.length) :
    l.take (k + 1) = l.take k ++ [l[k]] := by
  rw [List.take_succ, List.getElem?_eq_getElem h]
  rfl

theorem set_last_eq {α : Type} (z : α) (l : List α) (n : Nat) (h : l.length = n + 1) :
    l.set n z = l.take n ++ [z] := by
  have h1 := take_set_succ z l n (by omega)
  rw [List.take_of_length_le (by simp [h])] at h1
  exact h1

/-- A loop that writes `f` of the `index`-th element at `index`, followed by the write of
the terminator, yields the mapped list and the terminator, whatever the block held. -/
theorem fill_loop_eq {α β : Type} (f : α → β) (z : β) (xs : List α) (block : List β)
    (hb : block.length = xs.length + 1) :
    (forLoop xs.length (fun index h (defs : List β) => defs.set index (f xs[index])) 0
      block).set xs.length z = xs.map f ++ [z] := by
  have h := forLoop_invariant xs.length
    (fun index h (defs : List β) => defs.set index (f xs[index]))
    (fun k defs => defs.length = xs.length + 1 ∧ defs.take k = (xs.take k).map f)
    (by
      intro k hk defs hP
      obtain ⟨hl, ht⟩ := hP
      refine ⟨by simp [hl], ?_⟩
      rw [take_set_succ _ _ _ (by omega), take_succ_getElem xs k hk, ht]
      simp only [List.map_append, List.map_cons, List.map_nil])
    xs.length 0 block (by omega) ⟨hb, by simp⟩
  obtain ⟨hl, ht⟩ := h
  rw [set_last_eq z _ xs.length hl, ht, List.take_length]

theorem BleService.createGattCharacteristicDefinitions_eq (env : Env) (k : Nat)
    (s : BleService) (hmem : env.malloc k = true) :
    s.createGattCharacteristicDefinitions env k =
      (ESP_OK,
        { uuidDefinition := s.uuidDefinition
          characteristics := s.characteristics
          gattCharacteristicDefinitions :=
            some (s.characteristics.map (fun c => c.populateGattCharacteristicDefinition.2) ++
              [ble_gatt_chr_def.zero]) }) := by
  have h := fill_loop_eq (fun c : BleCharacteristic => c.populateGattCharacteristicDefinition.2)
    ble_gatt_chr_def.zero s.characteristics
    ((List.range (s.characteristics.length + 1)).map env.junkChr) (by simp)
  simp only [BleService.createGattCharacteristicDefinitions, hmem]
  simp only [Bool.true_eq_false, if_false]
  rw [h]

theorem runState_snoc {σ α β : Type} (f : σ → α → σ × β) (x : α) :
    ∀ (l : List α) (w : σ), runState f w (l ++ [x]) =
      ((f (runState f w l).1 x).1, (runState f w l).2 ++ [(f (runState f w l).1 x).2]) := by
  intro l
  induction l with
  | nil => intro w; simp [runState]
  | cons y ys ih => intro w; simp [runState, ih]

theorem runState_length {σ α β : Type} (f : σ → α → σ × β) :
    ∀ (l : List α) (w : σ), (runState f w l).2.length = l.length := by
  intro l
  induction l with
  | nil => intro w; simp [runState]
  | cons y ys ih => intro w; simp [runState, ih]

/-- A loop that threads a state through `f`, writing the `index`-th output at `index`,
followed by the write of the terminator, computes `runState` and the terminator,
whatever the block held. -/
theorem fill_loop_state {σ α β : Type} (f : σ → α → σ × β) (z : β) (xs : List α) (w : σ)
    (block : List β) (hb : block.length = xs.length + 1) :
    ((forLoop xs.length (fun index h (st : σ × List β) =>
        ((f st.1 xs[index]).1, st.2.set index (f st.1 xs[index]).2)) 0 (w, block)).1,
      (forLoop xs.length (fun index h (st : σ × List β) =>
        ((f st.1 xs[index]).1, st.2.set index (f st.1 xs[index]).2)) 0 (w, block)).2.set
          xs.length z) =
    ((runState f w xs).1, (runState f w xs).2 ++ [z]) := by
  have h := forLoop_invariant xs.length
    (fun index h (st : σ × List β) =>
      ((f st.1 xs[index]).1, st.2.set index (f st.1 xs[index]).2))
    (fun k st => st.2.length = xs.length + 1 ∧
      (st.1, st.2.take k) = runState f w (xs.take k))
    (by
      intro k hk st hP
      obtain ⟨hl, ht⟩ := hP
      refine ⟨by simp [hl], ?_⟩
      have h1 : st.1 = (runState f w (xs.take k)).1 := by rw [← ht]
      have h2 : st.2.take k = (runState f w (xs.take k)).2 := by rw [← ht]
      rw [take_succ_getElem xs k hk, runState_snoc]
      simp only [take_set_succ _ _ _ (show k < st.2.length by omega), h1, h2])
    xs.length 0 (w, block) (by omega) ⟨hb, by simp [runState]⟩
  obtain ⟨hl, ht⟩ := h
  rw [List.take_length] at ht
  have h1 := congrArg Prod.fst ht
  have h2 := congrArg Prod.snd ht
  simp only at h1 h2
  rw [set_last_eq z _ xs.length hl, h1, h2]

theorem BleAdvertiser.createCharacteristicDefinitions_eq (env : Env) (w : World)
    (characteristics : List BleCharacteristic) (hmem : env.malloc w.mallocCalls = true) :
    BleAdvertiser.createCharacteristicDefinitions env w characteristics =
      ((runState (BleAdvertiser.createCharacteristicDefinition env)
          { w with mallocCalls := w.mallocCalls + 1 } characteristics).1,
        some ((runState (BleAdvertiser.createCharacteristicDefinition env)
          { w with mallocCalls := w.mallocCalls + 1 } characteristics).2 ++
            [ble_gatt_chr_def.zero])) := by
  have h := fill_loop_state (BleAdvertiser.createCharacteristicDefinition env)
    ble_gatt_chr_def.zero characteristics { w with mallocCalls := w.mallocCalls + 1 }
    ((List.range (characteristics.length + 1)).map env.junkChr) (by simp)
  have h1 := congrArg Prod.fst h
  have h2 := congrArg Prod.snd h
  simp only at h1 h2
  simp only [BleAdvertiser.createCharacteristicDefinitions, hmem, Bool.true_eq_false, if_false]
  rw [h1, h2]

theorem BleAdvertiser.createServiceDefinitions_eq (env : Env) (w : World)
    (services : List BleService) (hmem : env.malloc w.mallocCalls = true) :
    BleAdvertiser.createServiceDefinitions env w services =
      ((runState (BleAdvertiser.createServiceDefinition env)
          { w with mallocCalls := w.mallocCalls + 1 } services).1,
        some ((runState (BleAdvertiser.createServiceDefinition env)
          { w with mallocCalls := w.mallocCalls + 1 } services).2 ++
            [ble_gatt_svc_def.zero])) := by
  have h := fill_loop_state (BleAdvertiser.createServiceDefinition env)
    ble_gatt_svc_def.zero services { w with mallocCalls := w.mallocCalls + 1 }
    ((List.range (services.length + 1)).map env.junkSvc) (by simp)
  have h1 := congrArg Prod.fst h
  have h2 := congrArg Prod.snd h
  simp only at h1 h2
  simp only [BleAdvertiser.createServiceDefinitions, hmem, Bool.true_eq_false, if_false]
  rw [h1, h2]

theorem runState_getElem {σ α β : Type} (f : σ → α → σ × β) :
    ∀ (l : List α) (w : σ) (i : Nat) (h : i < l.length),
      ∃ wi, (runState f w l).2[i]? = some (f wi l[i]).2 := by
  intro l
  induction l with
  | nil => intro w i h; simp at h
  | cons x xs ih =>
    intro w i h
    cases i with
    | zero => exact ⟨w, by simp [runState]⟩
    | succ i =>
      have hi : i < xs.length := by simpa using h
      obtain ⟨wi, hwi⟩ := ih (f w x).1 i hi
      exact ⟨wi, by simpa [runState] using hwi⟩

/-- With memory obtained, the characteristic list of `BleAdvertiser` has one entry per
descriptor, each the result of `createCharacteristicDefinition` on the descriptor at
that index, and then the terminator. -/
theorem BleAdvertiser.createCharacteristicDefinitions_entries (env : Env) (w : World)
    (cs : List BleCharacteristic) (hmem : env.malloc w.mallocCalls = true) :
    ∃ defs, (BleAdvertiser.createCharacteristicDefinitions env w cs).2 = some defs ∧
      defs.length = cs.length + 1 ∧
      defs[cs.length]? = some ble_gatt_chr_def.zero ∧
      (∀ j (hj : j < cs.length), ∃ wj,
        defs[j]? = some (BleAdvertiser.createCharacteristicDefinition env wj cs[j]).2) ∧
      (cs = [] → defs = [ble_gatt_chr_def.zero]) := by
  rw [BleAdvertiser.createCharacteristicDefinitions_eq env w cs hmem]
  have hl := runState_length (BleAdvertiser.createCharacteristicDefinition env) cs
    { w with mallocCalls := w.mallocCalls + 1 }
  refine ⟨_, rfl, by simp [hl], ?_, ?_, ?_⟩
  · rw [← hl]; simp
  · intro j hj
    obtain ⟨wj, hwj⟩ := runState_getElem (BleAdvertiser.createCharacteristicDefinition env) cs
      { w with mallocCalls := w.mallocCalls + 1 } j hj
    refine ⟨wj, ?_⟩
    rw [List.getElem?_append_left (by omega)]
    exact hwj
  · intro h
    subst h
    simp [runState]

/-- C5: when `malloc` returns memory, a list of `N` descriptors compiles to `N + 1`
entries, the `i`-th built from the `i`-th descriptor and the last the all-zero
terminator, and an empty list compiles to the terminator alone. This holds for
`BleService::createGattCharacteristicDefinitions` (which returns `ESP_OK`), for the
service table of `BleAdvertiser::createServiceDefinitions` and for the characteristic
list of each of its services. -/
theorem compiled_lists_end_with_sentinel (env : Env) (k : Nat) (w : World) (s : BleService)
    (services : List BleService) (hmem : ∀ n, env.malloc n = true) :
    (∃ defs, (s.createGattCharacteristicDefinitions env k).1 = ESP_OK ∧
      (s.createGattCharacteristicDefinitions env k).2.gattCharacteristicDefinitions =
        some defs ∧
      defs.length = s.characteristics.length + 1 ∧
      (∀ i (h : i < s.characteristics.length),
        defs[i]? = some (s.characteristics[i].populateGattCharacteristicDefinition).2) ∧
      defs[s.characteristics.length]? = some ble_gatt_chr_def.zero ∧
      (s.characteristics = [] → defs = [ble_gatt_chr_def.zero])) ∧
    (∃ table, (BleAdvertiser.createServiceDefinitions env w services).2 = some table ∧
      table.length = services.length + 1 ∧
      table[services.length]? = some ble_gatt_svc_def.zero ∧
      ∀ i (h : i < services.length), ∃ wi defs,
        table[i]? = some (BleAdvertiser.createServiceDefinition env wi services[i]).2 ∧
        (BleAdvertiser.createServiceDefinition env wi services[i]).2.characteristics =
          some defs ∧
        defs.length = services[i].characteristics.length + 1 ∧
        defs[services[i].characteristics.length]? = some ble_gatt_chr_def.zero ∧
        (∀ j (hj : j < services[i].characteristics.length), ∃ wj,
          defs[j]? = some (BleAdvertiser.createCharacteristicDefinition env wj
            services[i].characteristics[j]).2) ∧
        (services[i].characteristics = [] → defs = [ble_gatt_chr_def.zero])) := by
  constructor
  · rw [BleService.createGattCharacteristicDefinitions_eq env k s (hmem k)]
    refine ⟨_, rfl, rfl, by simp, ?_, ?_, ?_⟩
    · intro i h
      rw [List.getElem?_append_left (by simpa using h)]
      simp [List.getElem?_eq_getElem h]
    · have hl : s.characteristics.length =
          (s.characteristics.map (fun c => c.populateGattCharacteristicDefinition.2)).length := by
        simp
      rw [hl]; simp
    · intro h; simp [h]
  · rw [BleAdvertiser.createServiceDefinitions_eq env w services (hmem _)]
    have hl := runState_length (BleAdvertiser.createServiceDefinition env) services
      { w with mallocCalls := w.mallocCalls + 1 }
    refine ⟨_, rfl, by simp [hl], ?_, ?_⟩
    · rw [← hl]; simp
    · intro i h
      obtain ⟨wi, hwi⟩ := runState_getElem (BleAdvertiser.createServiceDefinition env) services
        { w with mallocCalls := w.mallocCalls + 1 } i h
      obtain ⟨defs, hd, hrest⟩ := BleAdvertiser.createCharacteristicDefinitions_entries env wi
        services[i].characteristics (hmem _)
      refine ⟨wi, defs, ?_, hd, hrest⟩
      rw [List.getElem?_append_left (by omega)]
      exact hwi

/-- C5, instance: with every allocation succeeding, the service without characteristics
compiles to the terminator alone under both builders, and the table of two services has
three entries. -/
theorem compiled_lists_end_with_sentinel_witness :
    (∀ n, sampleEnv.malloc n = true) ∧
    (sampleEmptyService.createGattCharacteristicDefinitions sampleEnv 0).1 = ESP_OK ∧
    (∃ defs, (sampleEmptyService.createGattCharacteristicDefinitions sampleEnv
        0).2.gattCharacteristicDefinitions = some defs ∧ defs = [ble_gatt_chr_def.zero]) ∧
    (∃ table, (BleAdvertiser.createServiceDefinitions sampleEnv emptyWorld
        [sampleEmptyService, sampleService]).2 = some table ∧ table.length = 3 ∧
        table[2]? = some ble_gatt_svc_def.zero) := by
  obtain ⟨⟨defs, h1, h2, -, -, -, h6⟩, ⟨table, t1, t2, t3, -⟩⟩ :=
    compiled_lists_end_with_sentinel sampleEnv 0 emptyWorld sampleEmptyService
      [sampleEmptyService, sampleService] (fun _ => rfl)
  exact ⟨fun _ => rfl, h1, ⟨defs, h2, h6 rfl⟩, ⟨table, t1, t2, t3⟩⟩

theorem mapInsert_fresh (m : List (Nat × BleCharacteristic)) (key : Nat)
    (value : BleCharacteristic) (h : key ∉ m.map Prod.fst) :
    mapInsert m key value = List.orderedInsert (fun a b => a.1 ≤ b.1) (key, value) m := by
  have hany : m.any (fun e => decide (e.1 = key)) = false := by
    rw [List.any_eq_false]
    intro e he hk
    apply h
    have hk1 : e.1 = key := by simpa using hk
    rw [← hk1]
    exact List.mem_map_of_mem Prod.fst he
  simp [mapInsert, hany]

/-- One call of `createCharacteristicDefinition` with a sound allocator: the registry
stays well formed, gains exactly one entry, keeps what it had, and holds the new
descriptor under the non-null address placed in the returned entry. -/
theorem BleAdvertiser.createCharacteristicDefinition_registry (env : Env)
    (hfresh : env.freshHandles) (w : World) (c : BleCharacteristic) (hok : w.registryOk) :
    (BleAdvertiser.createCharacteristicDefinition env w c).1.registryOk ∧
    (BleAdvertiser.createCharacteristicDefinition env w
      c).1.characteristicHandlesToCharacteristics.length =
        w.characteristicHandlesToCharacteristics.length + 1 ∧
    (∀ e ∈ w.characteristicHandlesToCharacteristics,
      e ∈ (BleAdvertiser.createCharacteristicDefinition env w
        c).1.characteristicHandlesToCharacteristics) ∧
    ((BleAdvertiser.createCharacteristicDefinition env w c).2.val_handle, c) ∈
      (BleAdvertiser.createCharacteristicDefinition env w
        c).1.characteristicHandlesToCharacteristics ∧
    (BleAdvertiser.createCharacteristicDefinition env w c).2.val_handle ≠ 0 := by
  obtain ⟨hnz, hnl⟩ := hfresh w.live
  obtain ⟨hnd, hlive⟩ := hok
  have hnk : env.newHandle w.live ∉ w.characteristicHandlesToCharacteristics.map Prod.fst := by
    intro hk
    obtain ⟨e, he, hk1⟩ := List.mem_map.1 hk
    apply hnl
    rw [← hk1]
    exact hlive e he
  have hins := mapInsert_fresh w.characteristicHandlesToCharacteristics (env.newHandle w.live)
    c hnk
  have hperm := List.perm_orderedInsert (fun (a b : Nat × BleCharacteristic) => a.1 ≤ b.1)
    (env.newHandle w.live, c) w.characteristicHandlesToCharacteristics
  simp only [BleAdvertiser.createCharacteristicDefinition, World.registryOk, hins]
  refine ⟨⟨?_, ?_⟩, ?_, ?_, ?_, hnz⟩
  · rw [(hperm.map Prod.fst).nodup_iff, List.map_cons, List.nodup_cons]
    exact ⟨hnk, hnd⟩
  · intro e he
    rcases List.mem_cons.1 (hperm.subset he) with h | h
    · rw [h]; exact List.mem_cons_self _ _
    · exact List.mem_cons_of_mem _ (hlive e h)
  · rw [hperm.length_eq]; simp
  · intro e he
    exact hperm.symm.subset (List.mem_cons_of_mem _ he)
  · exact hperm.symm.subset (List.mem_cons_self _ _)

/-- Registry growth over the characteristics of one list. -/
theorem runState_characteristics_registry (env : Env) (hfresh : env.freshHandles) :
    ∀ (cs : List BleCharacteristic) (w : World), w.registryOk →
      (runState (BleAdvertiser.createCharacteristicDefinition env) w cs).1.registryOk ∧
      (runState (BleAdvertiser.createCharacteristicDefinition env) w
        cs).1.characteristicHandlesToCharacteristics.length =
          w.characteristicHandlesToCharacteristics.length + cs.length ∧
      (∀ e ∈ w.characteristicHandlesToCharacteristics,
        e ∈ (runState (BleAdvertiser.createCharacteristicDefinition env) w
          cs).1.characteristicHandlesToCharacteristics) ∧
      ∀ j (hj : j < cs.length), ∃ d,
        (runState (BleAdvertiser.createCharacteristicDefinition env) w cs).2[j]? = some d ∧
        d.val_handle ≠ 0 ∧
        (d.val_handle, cs[j]) ∈ (runState (BleAdvertiser.createCharacteristicDefinition env) w
          cs).1.characteristicHandlesToCharacteristics := by
  intro cs
  induction cs with
  | nil =>
    intro w hok
    refine ⟨hok, rfl, fun e he => he, ?_⟩
    intro j hj
    simp at hj
  | cons c cs ih =>
    intro w hok
    obtain ⟨s1, s2, s3, s4, s5⟩ :=
      BleAdvertiser.createCharacteristicDefinition_registry env hfresh w c hok
    obtain ⟨r1, r2, r3, r4⟩ := ih (BleAdvertiser.createCharacteristicDefinition env w c).1 s1
    simp only [runState]
    refine ⟨r1, ?_, ?_, ?_⟩
    · rw [r2, s2, List.length_cons]; omega
    · intro e he
      exact r3 e (s3 e he)
    · intro j hj
      cases j with
      | zero => exact ⟨_, by simp, s5, r3 _ s4⟩
      | succ j =>
        have hj1 : j < cs.length := by simpa using hj
        obtain ⟨d, hd, hnz, hin⟩ := r4 j hj1
        exact ⟨d, by simpa using hd, hnz, by simpa using hin⟩

/-- Registry growth over one service entry, when its `malloc` returns memory. -/
theorem BleAdvertiser.createServiceDefinition_registry (env : Env) (hfresh : env.freshHandles)
    (hmem : ∀ n, env.malloc n = true) (w : World) (s : BleService) (hok : w.registryOk) :
    (BleAdvertiser.createServiceDefinition env w s).1.registryOk ∧
    (BleAdvertiser.createServiceDefinition env w
      s).1.characteristicHandlesToCharacteristics.length =
        w.characteristicHandlesToCharacteristics.length + s.characteristics.length ∧
    (∀ e ∈ w.characteristicHandlesToCharacteristics,
      e ∈ (BleAdvertiser.createServiceDefinition env w
        s).1.characteristicHandlesToCharacteristics) ∧
    ∃ defs, (BleAdvertiser.createServiceDefinition env w s).2.characteristics = some defs ∧
      ∀ j (hj : j < s.characteristics.length), ∃ d, defs[j]? = some d ∧
        d.val_handle ≠ 0 ∧
        (d.val_handle, s.characteristics[j]) ∈ (BleAdvertiser.createServiceDefinition env w
          s).1.characteristicHandlesToCharacteristics := by
  have heq := BleAdvertiser.createCharacteristicDefinitions_eq env w s.characteristics (hmem _)
  obtain ⟨r1, r2, r3, r4⟩ := runState_characteristics_registry env hfresh s.characteristics
    { w with mallocCalls := w.mallocCalls + 1 } hok
  have hl := runState_length (BleAdvertiser.createCharacteristicDefinition env)
    s.characteristics { w with mallocCalls := w.mallocCalls + 1 }
  simp only [BleAdvertiser.createServiceDefinition, heq]
  refine ⟨r1, r2, r3, _, rfl, ?_⟩
  intro j hj
  obtain ⟨d, hd, hnz, hin⟩ := r4 j hj
  refine ⟨d, ?_, hnz, hin⟩
  rw [List.getElem?_append_left (by omega)]
  exact hd

/-- Registry growth over the services of a table. -/
theorem runState_services_registry (env : Env) (hfresh : env.freshHandles)
    (hmem : ∀ n, env.malloc n = true) :
    ∀ (ss : List BleService) (w : World), w.registryOk →
      (runState (BleAdvertiser.createServiceDefinition env) w ss).1.registryOk ∧
      (runState (BleAdvertiser.createServiceDefinition env) w
        ss).1.characteristicHandlesToCharacteristics.length =
          w.characteristicHandlesToCharacteristics.length +
            (ss.map (fun s => s.characteristics.length)).sum ∧
      (∀ e ∈ w.characteristicHandlesToCharacteristics,
        e ∈ (runState (BleAdvertiser.createServiceDefinition env) w
          ss).1.characteristicHandlesToCharacteristics) ∧
      ∀ i (hi : i < ss.length) j (hj : j < ss[i].characteristics.length), ∃ sd defs d,
        (runState (BleAdvertiser.createServiceDefinition env) w ss).2[i]? = some sd ∧
        sd.characteristics = some defs ∧ defs[j]? = some d ∧ d.val_handle ≠ 0 ∧
        (d.val_handle, ss[i].characteristics[j]) ∈
          (runState (BleAdvertiser.createServiceDefinition env) w
            ss).1.characteristicHandlesToCharacteristics := by
  intro ss
  induction ss with
  | nil =>
    intro w hok
    refine ⟨hok, rfl, fun e he => he, ?_⟩
    intro i hi
    simp at hi
  | cons s ss ih =>
    intro w hok
    obtain ⟨s1, s2, s3, defs, s4, s5⟩ :=
      BleAdvertiser.createServiceDefinition_registry env hfresh hmem w s hok
    obtain ⟨r1, r2, r3, r4⟩ := ih (BleAdvertiser.createServiceDefinition env w s).1 s1
    simp only [runState]
    refine ⟨r1, ?_, ?_, ?_⟩
    · rw [r2, s2, List.map_cons, List.sum_cons]; omega
    · intro e he
      exact r3 e (s3 e he)
    · intro i hi j hj
      cases i with
      | zero =>
        obtain ⟨d, hd, hnz, hin⟩ := s5 j hj
        exact ⟨_, defs, d, by simp, s4, hd, hnz, r3 _ hin⟩
      | succ i =>
        have hi1 : i < ss.length := by simpa using hi
        obtain ⟨sd, defs1, d, h1, h2, h3, h4, h5⟩ := r4 i hi1 j (by simpa using hj)
        exact ⟨sd, defs1, d, by simpa using h1, h2, h3, h4, by simpa using h5⟩

theorem mem_mapInsert (m : List (Nat × BleCharacteristic)) (key : Nat)
    (value : BleCharacteristic) (e : Nat × BleCharacteristic)
    (h : e ∈ mapInsert m key value) : e ∈ m ∨ e = (key, value) := by
  unfold mapInsert at h
  split at h
  · exact Or.inl h
  · rcases (List.mem_orderedInsert (fun (a b : Nat × BleCharacteristic) => a.1 ≤ b.1)).1 h
      with h1 | h1
    · exact Or.inr h1
    · exact Or.inl h1

/-- Every registry entry after the characteristics of one list is an earlier entry or
the pair of one of the new table entries with its descriptor. -/
theorem runState_characteristics_origin (env : Env) :
    ∀ (cs : List BleCharacteristic) (w : World) (e : Nat × BleCharacteristic),
      e ∈ (runState (BleAdvertiser.createCharacteristicDefinition env) w
        cs).1.characteristicHandlesToCharacteristics →
      e ∈ w.characteristicHandlesToCharacteristics ∨
      ∃ j, ∃ hj : j < cs.length, ∃ d,
        (runState (BleAdvertiser.createCharacteristicDefinition env) w cs).2[j]? = some d ∧
        e = (d.val_handle, cs[j]) := by
  intro cs
  induction cs with
  | nil =>
    intro w e he
    exact Or.inl he
  | cons c cs ih =>
    intro w e he
    simp only [runState] at he ⊢
    rcases ih _ e he with h | ⟨j, hj, d, hd, hed⟩
    · rcases mem_mapInsert _ _ _ e h with h1 | h1
      · exact Or.inl h1
      · exact Or.inr ⟨0, by simp, (BleAdvertiser.createCharacteristicDefinition env w c).2,
          by simp, h1⟩
    · exact Or.inr ⟨j + 1, by simpa using hj, d, by simpa using hd, by simpa using hed⟩

theorem BleAdvertiser.createServiceDefinition_origin (env : Env)
    (hmem : ∀ n, env.malloc n = true) (w : World) (s : BleService)
    (e : Nat × BleCharacteristic)
    (he : e ∈ (BleAdvertiser.createServiceDefinition env w
      s).1.characteristicHandlesToCharacteristics) :
    e ∈ w.characteristicHandlesToCharacteristics ∨
    ∃ defs, (BleAdvertiser.createServiceDefinition env w s).2.characteristics = some defs ∧
      ∃ j, ∃ hj : j < s.characteristics.length, ∃ d,
        defs[j]? = some d ∧ e = (d.val_handle, s.characteristics[j]) := by
  have heq := BleAdvertiser.createCharacteristicDefinitions_eq env w s.characteristics (hmem _)
  have hl := runState_length (BleAdvertiser.createCharacteristicDefinition env)
    s.characteristics { w with mallocCalls := w.mallocCalls + 1 }
  simp only [BleAdvertiser.createServiceDefinition, heq] at he ⊢
  rcases runState_characteristics_origin env s.characteristics
    { w with mallocCalls := w.mallocCalls + 1 } e he with h | ⟨j, hj, d, hd, hed⟩
  · exact Or.inl h
  · refine Or.inr ⟨_, rfl, j, hj, d, ?_, hed⟩
    rw [List.getElem?_append_left (by omega)]
    exact hd

/-- Every registry entry after the services of a table is an earlier entry or the pair
of one of the new characteristic entries with its descriptor. -/
theorem runState_services_origin (env : Env) (hmem : ∀ n, env.malloc n = true) :
    ∀ (ss : List BleService) (w : World) (e : Nat × BleCharacteristic),
      e ∈ (runState (BleAdvertiser.createServiceDefinition env) w
        ss).1.characteristicHandlesToCharacteristics →
      e ∈ w.characteristicHandlesToCharacteristics ∨
      ∃ i, ∃ hi : i < ss.length, ∃ j, ∃ hj : j < ss[i].characteristics.length, ∃ sd defs d,
        (runState (BleAdvertiser.createServiceDefinition env) w ss).2[i]? = some sd ∧
        sd.characteristics = some defs ∧ defs[j]? = some d ∧
        e = (d.val_handle, ss[i].characteristics[j]) := by
  intro ss
  induction ss with
  | nil =>
    intro w e he
    exact Or.inl he
  | cons s ss ih =>
    intro w e he
    simp only [runState] at he ⊢
    rcases ih _ e he with h | ⟨i, hi, j, hj, sd, defs, d, h1, h2, h3, h4⟩
    · rcases BleAdvertiser.createServiceDefinition_origin env hmem w s e h with
        h1 | ⟨defs, hd, j, hj, d, hdj, hed⟩
      · exact Or.inl h1
      · exact Or.inr ⟨0, by simp, j, by simpa using hj, _, defs, d, by simp, hd, hdj,
          by simpa using hed⟩
    · exact Or.inr ⟨i + 1, by simpa using hi, j, by simpa using hj, sd, defs, d,
        by simpa using h1, h2, h3, by simpa using h4⟩

/-- C6: compiling `N` services from a state with an empty registry, with a sound
allocator and memory obtained, leaves the registry with exactly the sum of the
characteristic counts as its number of entries, under pairwise distinct cell addresses;
every characteristic of every service is registered under the non-null address that its
own table entry carries as `val_handle`, and every registry entry is such a pair. -/
theorem registry_after_compilation (env : Env) (w : World) (services : List BleService)
    (hfresh : env.freshHandles) (hmem : ∀ n, env.malloc n = true)
    (hempty : w.characteristicHandlesToCharacteristics = []) :
    (BleAdvertiser.createServiceDefinitions env w
      services).1.characteristicHandlesToCharacteristics.length =
        (services.map (fun s => s.characteristics.length)).sum ∧
    ((BleAdvertiser.createServiceDefinitions env w
      services).1.characteristicHandlesToCharacteristics.map Prod.fst).Nodup ∧
    ∃ table, (BleAdvertiser.createServiceDefinitions env w services).2 = some table ∧
      (∀ i (hi : i < services.length) j (hj : j < services[i].characteristics.length),
        ∃ sd defs d, table[i]? = some sd ∧ sd.characteristics = some defs ∧
          defs[j]? = some d ∧ d.val_handle ≠ 0 ∧
          (d.val_handle, services[i].characteristics[j]) ∈
            (BleAdvertiser.createServiceDefinitions env w
              services).1.characteristicHandlesToCharacteristics) ∧
      ∀ e ∈ (BleAdvertiser.createServiceDefinitions env w
          services).1.characteristicHandlesToCharacteristics,
        ∃ i, ∃ hi : i < services.length, ∃ j, ∃ hj : j < services[i].characteristics.length,
          ∃ sd defs d, table[i]? = some sd ∧ sd.characteristics = some defs ∧
            defs[j]? = some d ∧ e = (d.val_handle, services[i].characteristics[j]) := by
  have hok : ({ w with mallocCalls := w.mallocCalls + 1 } : World).registryOk := by
    simp [World.registryOk, hempty]
  have horigin := runState_services_origin env hmem services
    { w with mallocCalls := w.mallocCalls + 1 }
  obtain ⟨r1, r2, -, r4⟩ := runState_services_registry env hfresh hmem services
    { w with mallocCalls := w.mallocCalls + 1 } hok
  have hl := runState_length (BleAdvertiser.createServiceDefinition env) services
    { w with mallocCalls := w.mallocCalls + 1 }
  rw [BleAdvertiser.createServiceDefinitions_eq env w services (hmem _)]
  refine ⟨?_, r1.1, _, rfl, ?_, ?_⟩
  · rw [r2]; simp [hempty]
  · intro i hi j hj
    obtain ⟨sd, defs, d, h1, h2, h3, h4, h5⟩ := r4 i hi j hj
    refine ⟨sd, defs, d, ?_, h2, h3, h4, h5⟩
    rw [List.getElem?_append_left (by omega)]
    exact h1
  · intro e he
    rcases horigin e he with h | ⟨i, hi, j, hj, sd, defs, d, h1, h2, h3, h4⟩
    · simp [hempty] at h
    · refine ⟨i, hi, j, hj, sd, defs, d, ?_, h2, h3, h4⟩
      rw [List.getElem?_append_left (by omega)]
      exact h1

theorem mem_le_sum : ∀ (l : List Nat) (x : Nat), x ∈ l → x ≤ l.sum := by
  intro l
  induction l with
  | nil => intro x hx; simp at hx
  | cons y ys ih =>
    intro x hx
    rw [List.sum_cons]
    rcases List.mem_cons.1 hx with h | h
    · omega
    · have := ih x h
      omega

theorem sampleEnv_freshHandles : sampleEnv.freshHandles := by
  intro live
  refine ⟨by simp [sampleEnv], ?_⟩
  intro h
  have := mem_le_sum live _ h
  simp [sampleEnv] at this

/-- C6, instance: a service without characteristics and a service with two, compiled
from the empty state: two registry entries under distinct addresses. -/
theorem registry_after_compilation_witness :
    sampleEnv.freshHandles ∧ (∀ n, sampleEnv.malloc n = true) ∧
    emptyWorld.characteristicHandlesToCharacteristics = [] ∧
    (BleAdvertiser.createServiceDefinitions sampleEnv emptyWorld
      [sampleEmptyService, sampleService]).1.characteristicHandlesToCharacteristics.length =
        2 ∧
    ((BleAdvertiser.createServiceDefinitions sampleEnv emptyWorld
      [sampleEmptyService, sampleService]).1.characteristicHandlesToCharacteristics.map
        Prod.fst).Nodup :=
  ⟨sampleEnv_freshHandles, fun _ => rfl, rfl,
    (registry_after_compilation sampleEnv emptyWorld [sampleEmptyService, sampleService]
      sampleEnv_freshHandles (fun _ => rfl) rfl).1,
    (registry_after_compilation sampleEnv emptyWorld [sampleEmptyService, sampleService]
      sampleEnv_freshHandles (fun _ => rfl) rfl).2.1⟩

/-! ## Write and descriptor accesses -/

/-- C11, evaluation at the failing input: the readable sample has no write handler and
is registered with handle 7. On a write of handle 7 the registry dispatcher of
`BleAdvertiser` calls the empty `std::function` and ends in `bad_function_call` instead
of returning a status, while the handler of `BleCharacteristic`, which tests the
handler first, returns `BLE_ATT_ERR_UNLIKELY` without any call. -/
theorem write_without_handler_throws :
    sampleReadable.write = false ∧ sampleReadable.onWrite = none ∧
    (sampleWorld sampleReadable).mem 100 = 7 ∧
    BleAdvertiser.characteristicAccessHandler sampleEnv (sampleWorld sampleReadable) 1 7
      sampleWrite = ⟨Ret.thrown Exc.bad_function_call, sampleWrite.om, []⟩ ∧
    BleCharacteristic.characteristicAccessHandler sampleEnv (sampleWorld sampleReadable).mem
      1 7 sampleWrite sampleReadable =
        ⟨Ret.ok BLE_ATT_ERR_UNLIKELY, sampleWrite.om, []⟩ := by
  refine ⟨rfl, rfl, rfl, rfl, rfl⟩

/-- C12, evaluation at the failing input: the payload `1, 2, 3, 4` arrives as a chain of
two buffers; both dispatchers call the write handler once, but with the two bytes of
the first buffer only, and return what the handler answers for those two bytes. -/
theorem write_passes_first_buffer_only :
    sampleChainedWrite.om.payload = [1, 2, 3, 4] ∧
    BleAdvertiser.characteristicAccessHandler sampleEnv (sampleWorld sampleCounting) 1 7
      sampleChainedWrite =
        ⟨Ret.ok 2, sampleChainedWrite.om, [Call.onWrite 100 [1, 2]]⟩ ∧
    BleCharacteristic.characteristicAccessHandler sampleEnv (sampleWorld sampleCounting).mem
      1 7 sampleChainedWrite sampleCounting =
        ⟨Ret.ok 2, sampleChainedWrite.om, [Call.onWrite 100 [1, 2]]⟩ := by
  refine ⟨rfl, rfl, rfl⟩

/-- C13, counterexample: a `ReadDescriptor` access, an access with the unknown
operation code 9 and a read of the unregistered handle 8 all end with the same status,
in both dispatchers. -/
theorem descriptor_and_unknown_op_same_status :
    (BleAdvertiser.characteristicAccessHandler sampleEnv (sampleWorld sampleReadable) 1 7
        { op := BLE_GATT_ACCESS_OP_READ_DSC, om := sampleRead.om }).ret =
      (BleAdvertiser.characteristicAccessHandler sampleEnv (sampleWorld sampleReadable) 1 7
        { op := 9, om := sampleRead.om }).ret ∧
    (BleAdvertiser.characteristicAccessHandler sampleEnv (sampleWorld sampleReadable) 1 7
        { op := 9, om := sampleRead.om }).ret =
      (BleAdvertiser.characteristicAccessHandler sampleEnv (sampleWorld sampleReadable) 1 8
        sampleRead).ret ∧
    (BleCharacteristic.characteristicAccessHandler sampleEnv (sampleWorld sampleReadable).mem
        1 7 { op := BLE_GATT_ACCESS_OP_WRITE_DSC, om := sampleRead.om } sampleReadable).ret =
      (BleCharacteristic.characteristicAccessHandler sampleEnv
        (sampleWorld sampleReadable).mem 1 7 { op := 9, om := sampleRead.om }
        sampleReadable).ret ∧
    (BleCharacteristic.characteristicAccessHandler sampleEnv (sampleWorld sampleReadable).mem
        1 7 { op := 9, om := sampleRead.om } sampleReadable).ret =
      (BleCharacteristic.characteristicAccessHandler sampleEnv
        (sampleWorld sampleReadable).mem 1 8 sampleRead sampleReadable).ret := by
  refine ⟨rfl, rfl, rfl, rfl⟩

/-- C13, amended: for every handle, registry state and characteristic, an access whose
operation code is neither `ReadCharacteristic` nor `WriteCharacteristic` (so
`ReadDescriptor`, `WriteDescriptor` and every other code) ends with
`BLE_ATT_ERR_UNLIKELY` in both dispatchers, with no handler call and the chain as it
was. -/
theorem other_operations_unlikely (env : Env) (w : World) (conn_handle attr_handle : Nat)
    (ctxt : ble_gatt_access_ctxt) (arg : BleCharacteristic)
    (hr : ctxt.op ≠ BLE_GATT_ACCESS_OP_READ_CHR) (hw : ctxt.op ≠ BLE_GATT_ACCESS_OP_WRITE_CHR) :
    BleAdvertiser.characteristicAccessHandler env w conn_handle attr_handle ctxt =
      ⟨Ret.ok BLE_ATT_ERR_UNLIKELY, ctxt.om, []⟩ ∧
    BleCharacteristic.characteristicAccessHandler env w.mem conn_handle attr_handle ctxt arg =
      ⟨Ret.ok BLE_ATT_ERR_UNLIKELY, ctxt.om, []⟩ := by
  constructor
  · simp only [BleAdvertiser.characteristicAccessHandler, if_neg hr, if_neg hw]
    split_ifs <;> rfl
  · simp only [BleCharacteristic.characteristicAccessHandler, if_neg hr, if_neg hw]
    split_ifs <;> rfl

/-- C13, instance: a `ReadDescriptor` access on the registered handle 7. -/
theorem other_operations_unlikely_witness :
    BLE_GATT_ACCESS_OP_READ_DSC ≠ BLE_GATT_ACCESS_OP_READ_CHR ∧
    BLE_GATT_ACCESS_OP_READ_DSC ≠ BLE_GATT_ACCESS_OP_WRITE_CHR ∧
    BleAdvertiser.characteristicAccessHandler sampleEnv (sampleWorld sampleReadable) 1 7
        { op := BLE_GATT_ACCESS_OP_READ_DSC, om := sampleRead.om } =
      ⟨Ret.ok BLE_ATT_ERR_UNLIKELY, sampleRead.om, []⟩ ∧
    BleCharacteristic.characteristicAccessHandler sampleEnv (sampleWorld sampleReadable).mem
        1 7 { op := BLE_GATT_ACCESS_OP_READ_DSC, om := sampleRead.om } sampleReadable =
      ⟨Ret.ok BLE_ATT_ERR_UNLIKELY, sampleRead.om, []⟩ :=
  ⟨by decide, by decide,
    other_operations_unlikely sampleEnv (sampleWorld sampleReadable) 1 7
      { op := BLE_GATT_ACCESS_OP_READ_DSC, om := sampleRead.om } sampleReadable
      (by decide) (by decide)⟩

/-! ## Connection lifecycle -/

theorem startAdvertising_accepted (hs : HostStack) (a : Advertiser)
    (h : hs.acceptsAdvertising) :
    BleAdvertiser.startAdvertising hs a =
      ⟨{ a with link := LinkState.advertising },
        [StackCall.ble_gap_adv_set_fields (BleAdvertiser.advertisingFields a),
          StackCall.ble_gap_adv_rsp_set_fields (BleAdvertiser.responseFields a),
          StackCall.ble_gap_adv_start a.deviceAddressType BLE_HS_FOREVER
            BleAdvertiser.advertisingParams],
        AdvOutcome.started⟩ := by
  obtain ⟨h1, h2, h3⟩ := h
  simp [BleAdvertiser.startAdvertising, h1, h2, h3]

theorem startAdvertising_started (hs : HostStack) (a : Advertiser)
    (h : (BleAdvertiser.startAdvertising hs a).outcome = AdvOutcome.started) :
    (BleAdvertiser.startAdvertising hs a).state.link = LinkState.advertising := by
  unfold BleAdvertiser.startAdvertising at h ⊢
  simp only at h ⊢
  split_ifs at h ⊢
  simp_all

theorem gapEventHandler_keeps_link (hs : HostStack) (a : Advertiser) (event : ble_gap_event)
    (hacc : hs.acceptsAdvertising)
    (ha : a.link = LinkState.advertising ∨ a.link = LinkState.connected) :
    (BleAdvertiser.gapEventHandler hs a event).state.link = LinkState.advertising ∨
    (BleAdvertiser.gapEventHandler hs a event).state.link = LinkState.connected := by
  cases event with
  | connect status conn_handle =>
    by_cases hst : status = 0
    · right
      simp only [BleAdvertiser.gapEventHandler, hst, if_true]
      split_ifs <;> rfl
    · left
      simp only [BleAdvertiser.gapEventHandler, hst, if_false,
        startAdvertising_accepted hs _ hacc]
  | disconnect reason =>
    left
    simp only [BleAdvertiser.gapEventHandler, startAdvertising_accepted hs _ hacc]
  | conn_update status conn_handle => exact ha
  | other type => exact ha

/-- C14, counterexample: after a successful start the controller advertises; a
disconnect, or a failed connect, during which the stack refuses `ble_gap_adv_start`
leaves it neither advertising nor connected. -/
theorem refused_restart_ends_in_neither :
    (BleAdvertiser.startAdvertising acceptingStack sampleAdvertiser).outcome =
      AdvOutcome.started ∧
    (BleAdvertiser.startAdvertising acceptingStack sampleAdvertiser).state.link =
      LinkState.advertising ∧
    (runEvents (BleAdvertiser.startAdvertising acceptingStack sampleAdvertiser).state
      [(refusingStartStack, ble_gap_event.disconnect 19)]).link = LinkState.neither ∧
    (runEvents (BleAdvertiser.startAdvertising acceptingStack sampleAdvertiser).state
      [(acceptingStack, ble_gap_event.connect 0 1),
        (refusingStartStack, ble_gap_event.connect 2 1)]).link = LinkState.neither := by
  decide

theorem startAdvertising_pass (hs : HostStack) (a : Advertiser) (h : hs.acceptsPass a) :
    (BleAdvertiser.startAdvertising hs a).state = { a with link := LinkState.advertising } := by
  obtain ⟨h1, h2, h3⟩ := h
  simp [BleAdvertiser.startAdvertising, h1, h2, h3]

theorem startAdvertising_refused (hs : HostStack) (a : Advertiser) (h : ¬ hs.acceptsPass a) :
    (BleAdvertiser.startAdvertising hs a).state = a := by
  unfold BleAdvertiser.startAdvertising
  simp only
  split_ifs with h1 h2 h3 h4
  · rfl
  · rfl
  · rfl
  · rfl
  · exact absurd ⟨not_not.1 h1, not_not.1 h3, not_not.1 h4⟩ h

theorem gapEventHandler_restart (hs : HostStack) (a : Advertiser) (event : ble_gap_event)
    (hevent : event.restartsAdvertising = true) :
    (BleAdvertiser.gapEventHandler hs a event).state =
      (BleAdvertiser.startAdvertising hs { a with link := LinkState.neither }).state := by
  cases event with
  | connect status conn_handle =>
    have hst : status ≠ 0 := by simpa [ble_gap_event.restartsAdvertising] using hevent
    simp only [BleAdvertiser.gapEventHandler, hst, if_false]
  | disconnect reason => rfl
  | conn_update status conn_handle => simp [ble_gap_event.restartsAdvertising] at hevent
  | other type => simp [ble_gap_event.restartsAdvertising] at hevent

theorem gapEventHandler_no_restart (hs : HostStack) (a : Advertiser) (event : ble_gap_event)
    (hevent : event.restartsAdvertising = false)
    (ha : a.link = LinkState.advertising ∨ a.link = LinkState.connected) :
    (BleAdvertiser.gapEventHandler hs a event).state.link = LinkState.advertising ∨
    (BleAdvertiser.gapEventHandler hs a event).state.link = LinkState.connected := by
  cases event with
  | connect status conn_handle =>
    have hst : status = 0 := by simpa [ble_gap_event.restartsAdvertising] using hevent
    right
    simp only [BleAdvertiser.gapEventHandler, hst, if_true]
    split_ifs <;> rfl
  | disconnect reason => simp [ble_gap_event.restartsAdvertising] at hevent
  | conn_update status conn_handle => exact ha
  | other type => exact ha

/-- C14, amended: from a successful start, every sequence of events (connect with any
status, disconnect, parameter update, any other type) along which the stack accepts the
three requests of every advertising pass that is made ends advertising or connected,
whatever the stack answers to all other requests; and from any state, a failed connect
or a disconnect during which the stack refuses a request of the pass ends in neither. -/
theorem lifecycle_advertising_or_connected (hs0 : HostStack) (a0 : Advertiser)
    (events : List (HostStack × ble_gap_event))
    (hstart : (BleAdvertiser.startAdvertising hs0 a0).outcome = AdvOutcome.started)
    (hacc : passesAccepted (BleAdvertiser.startAdvertising hs0 a0).state events) :
    ((runEvents (BleAdvertiser.startAdvertising hs0 a0).state events).link =
        LinkState.advertising ∨
      (runEvents (BleAdvertiser.startAdvertising hs0 a0).state events).link =
        LinkState.connected) ∧
    ∀ (hs : HostStack) (a : Advertiser) (event : ble_gap_event),
      event.restartsAdvertising = true → ¬ hs.acceptsPass a →
      (BleAdvertiser.gapEventHandler hs a event).state.link = LinkState.neither := by
  have key : ∀ (events : List (HostStack × ble_gap_event)) (a : Advertiser),
      passesAccepted a events →
      (a.link = LinkState.advertising ∨ a.link = LinkState.connected) →
      ((runEvents a events).link = LinkState.advertising ∨
        (runEvents a events).link = LinkState.connected) := by
    intro events
    induction events with
    | nil => intro a _ ha; exact ha
    | cons p rest ih =>
      intro a hacc ha
      obtain ⟨hs, event⟩ := p
      obtain ⟨hnow, hrest⟩ := hacc
      simp only [runEvents]
      apply ih _ hrest
      cases hevent : event.restartsAdvertising with
      | true =>
        left
        have hp : hs.acceptsPass { a with link := LinkState.neither } := hnow hevent
        rw [gapEventHandler_restart hs a event hevent, startAdvertising_pass hs _ hp]
      | false => exact gapEventHandler_no_restart hs a event hevent ha
  refine ⟨key events _ hacc (Or.inl (startAdvertising_started hs0 a0 hstart)), ?_⟩
  intro hs a event hevent hrefused
  have hp : ¬ hs.acceptsPass { a with link := LinkState.neither } := hrefused
  rw [gapEventHandler_restart hs a event hevent, startAdvertising_refused hs _ hp]

theorem acceptingStack_acceptsAdvertising : acceptingStack.acceptsAdvertising :=
  ⟨fun _ => rfl, fun _ => rfl, fun _ _ _ => rfl⟩

theorem passesAccepted_of_accepting (events : List (HostStack × ble_gap_event))
    (h : ∀ p ∈ events, p.1.acceptsAdvertising) : ∀ a : Advertiser, passesAccepted a events := by
  induction events with
  | nil => intro a; trivial
  | cons p rest ih =>
    intro a
    obtain ⟨hs, event⟩ := p
    obtain ⟨h1, h2, h3⟩ := h (hs, event) (List.mem_cons_self _ _)
    exact ⟨fun _ => ⟨h1 _, h2 _, h3 _ _ _⟩,
      ih (fun q hq => h q (List.mem_cons_of_mem _ hq)) _⟩

/-- C14, instance: failed connect, connect, parameter update, disconnect, all accepted,
end advertising or connected; a disconnect during which the stack refuses
`ble_gap_adv_start` ends in neither. -/
theorem lifecycle_advertising_or_connected_witness :
    (BleAdvertiser.startAdvertising acceptingStack sampleAdvertiser).outcome =
      AdvOutcome.started ∧
    ((runEvents (BleAdvertiser.startAdvertising acceptingStack sampleAdvertiser).state
        [(acceptingStack, ble_gap_event.connect 2 1),
          (acceptingStack, ble_gap_event.connect 0 1),
          (acceptingStack, ble_gap_event.conn_update 0 1),
          (acceptingStack, ble_gap_event.disconnect 19)]).link = LinkState.advertising ∨
      (runEvents (BleAdvertiser.startAdvertising acceptingStack sampleAdvertiser).state
        [(acceptingStack, ble_gap_event.connect 2 1),
          (acceptingStack, ble_gap_event.connect 0 1),
          (acceptingStack, ble_gap_event.conn_update 0 1),
          (acceptingStack, ble_gap_event.disconnect 19)]).link = LinkState.connected) ∧
    (BleAdvertiser.gapEventHandler refusingStartStack longNameAdvertiser
      (ble_gap_event.disconnect 19)).state.link = LinkState.neither :=
  have h := lifecycle_advertising_or_connected acceptingStack sampleAdvertiser
    [(acceptingStack, ble_gap_event.connect 2 1),
      (acceptingStack, ble_gap_event.connect 0 1),
      (acceptingStack, ble_gap_event.conn_update 0 1),
      (acceptingStack, ble_gap_event.disconnect 19)] (by decide)
    (passesAccepted_of_accepting _
      (by
        intro p hp
        simp only [List.mem_cons, List.mem_singleton, List.not_mem_nil, or_false] at hp
        rcases hp with h | h | h | h <;> subst h <;> exact acceptingStack_acceptsAdvertising)
      _)
  ⟨by decide, h.1,
    h.2 refusingStartStack longNameAdvertiser (ble_gap_event.disconnect 19) rfl
      (fun hp => absurd hp.2.2 (by decide))⟩

/-- C15: a failed connect, then a successful connect, then a disconnect, with the stack
accepting every request, end advertising; the failed connect and the disconnect each
make one advertising pass, the successful connect none, and both passes submit the same
advertising fields, response fields and parameters, which are determined by the device
name held by the GAP service, the appearance, the role, the address and its type. -/
theorem reconnect_cycle_readvertises (hs1 hs2 hs3 : HostStack) (a b : Advertiser)
    (status reason : Int) (h1 h2 : Nat) (r1 r2 r3 : GapResult)
    (hstatus : status ≠ 0)
    (hacc1 : hs1.acceptsAll) (hacc2 : hs2.acceptsAll) (hacc3 : hs3.acceptsAll)
    (e1 : r1 = BleAdvertiser.gapEventHandler hs1 a (ble_gap_event.connect status h1))
    (e2 : r2 = BleAdvertiser.gapEventHandler hs2 r1.state (ble_gap_event.connect 0 h2))
    (e3 : r3 = BleAdvertiser.gapEventHandler hs3 r2.state (ble_gap_event.disconnect reason))
    (hname : b.gapDeviceName = a.gapDeviceName)
    (happearance : b.deviceAppearance = a.deviceAppearance)
    (hrole : b.deviceRole = a.deviceRole)
    (haddress : b.deviceAddress = a.deviceAddress)
    (htype : b.deviceAddressType = a.deviceAddressType) :
    r3.state.link = LinkState.advertising ∧
    r1.calls = (BleAdvertiser.startAdvertising hs1 a).calls ∧
    r1.calls =
      [StackCall.ble_gap_adv_set_fields (BleAdvertiser.advertisingFields a),
        StackCall.ble_gap_adv_rsp_set_fields (BleAdvertiser.responseFields a),
        StackCall.ble_gap_adv_start a.deviceAddressType BLE_HS_FOREVER
          BleAdvertiser.advertisingParams] ∧
    r2.calls =
      [StackCall.ble_gap_conn_find h2,
        StackCall.ble_gap_update_params h2
          { itvl_min := (hs2.ble_gap_conn_find h2).2.conn_itvl
            itvl_max := (hs2.ble_gap_conn_find h2).2.conn_itvl
            latency := 3
            supervision_timeout := (hs2.ble_gap_conn_find h2).2.supervision_timeout },
        StackCall.ble_gattc_exchange_mtu h2] ∧
    r2.state.link = LinkState.connected ∧
    r3.calls = r1.calls ∧
    (BleAdvertiser.startAdvertising hs1 b).calls = r1.calls := by
  have s1 := startAdvertising_accepted hs1 { a with link := LinkState.neither } hacc1.1
  have s1a := startAdvertising_accepted hs1 a hacc1.1
  have s1b := startAdvertising_accepted hs1 b hacc1.1
  have hr1 : r1 = ⟨{ a with link := LinkState.advertising },
      [StackCall.ble_gap_adv_set_fields (BleAdvertiser.advertisingFields a),
        StackCall.ble_gap_adv_rsp_set_fields (BleAdvertiser.responseFields a),
        StackCall.ble_gap_adv_start a.deviceAddressType BLE_HS_FOREVER
          BleAdvertiser.advertisingParams], 0⟩ := by
    rw [e1]
    simp only [BleAdvertiser.gapEventHandler, hstatus, if_false, s1]
    rfl
  have hfind := hacc2.2.1 h2
  have hupd := hacc2.2.2 h2
  have hr2 : r2 = ⟨{ a with link := LinkState.connected },
      [StackCall.ble_gap_conn_find h2,
        StackCall.ble_gap_update_params h2
          { itvl_min := (hs2.ble_gap_conn_find h2).2.conn_itvl
            itvl_max := (hs2.ble_gap_conn_find h2).2.conn_itvl
            latency := 3
            supervision_timeout := (hs2.ble_gap_conn_find h2).2.supervision_timeout },
        StackCall.ble_gattc_exchange_mtu h2], 0⟩ := by
    rw [e2, hr1]
    simp [BleAdvertiser.gapEventHandler, hfind, hupd]
  have s3 := startAdvertising_accepted hs3 { a with link := LinkState.neither } hacc3.1
  have hr3 : r3 = ⟨{ a with link := LinkState.advertising },
      [StackCall.ble_gap_adv_set_fields (BleAdvertiser.advertisingFields a),
        StackCall.ble_gap_adv_rsp_set_fields (BleAdvertiser.responseFields a),
        StackCall.ble_gap_adv_start a.deviceAddressType BLE_HS_FOREVER
          BleAdvertiser.advertisingParams], 0⟩ := by
    rw [e3, hr2]
    simp only [BleAdvertiser.gapEventHandler]
    rw [s3]
    rfl
  have hfa : BleAdvertiser.advertisingFields b = BleAdvertiser.advertisingFields a := by
    simp [BleAdvertiser.advertisingFields, hname, happearance, hrole]
  have hfr : BleAdvertiser.responseFields b = BleAdvertiser.responseFields a := by
    simp [BleAdvertiser.responseFields, haddress, htype]
  refine ⟨by rw [hr3], by rw [hr1, s1a], by rw [hr1], by rw [hr2], by rw [hr2],
    by rw [hr3, hr1], ?_⟩
  rw [hr1, s1b, hfa, hfr, htype]

theorem acceptingStack_acceptsAll : acceptingStack.acceptsAll :=
  ⟨acceptingStack_acceptsAdvertising, fun _ => rfl, fun _ _ => rfl⟩

/-- C15, instance: the cycle on the sample controller, compared with a controller of the
same configuration that is connected and has another MTU. -/
theorem reconnect_cycle_readvertises_witness :
    (BleAdvertiser.gapEventHandler acceptingStack
      (BleAdvertiser.gapEventHandler acceptingStack
        (BleAdvertiser.gapEventHandler acceptingStack sampleAdvertiser
          (ble_gap_event.connect 2 1)).state
        (ble_gap_event.connect 0 1)).state
      (ble_gap_event.disconnect 19)).state.link = LinkState.advertising ∧
    (BleAdvertiser.gapEventHandler acceptingStack
      (BleAdvertiser.gapEventHandler acceptingStack
        (BleAdvertiser.gapEventHandler acceptingStack sampleAdvertiser
          (ble_gap_event.connect 2 1)).state
        (ble_gap_event.connect 0 1)).state
      (ble_gap_event.disconnect 19)).calls =
    (BleAdvertiser.gapEventHandler acceptingStack sampleAdvertiser
      (ble_gap_event.connect 2 1)).calls :=
  have h := reconnect_cycle_readvertises acceptingStack acceptingStack acceptingStack
    sampleAdvertiser { sampleAdvertiser with mtu := 185, link := LinkState.connected }
    2 19 1 1 _ _ _ (by decide) acceptingStack_acceptsAll acceptingStack_acceptsAll
    acceptingStack_acceptsAll rfl rfl rfl rfl rfl rfl rfl rfl
  ⟨h.1, h.2.2.2.2.2.1⟩

/-- C16, counterexample: with the default device name, the advertising fields together
with the out-of-band hint (device address and URI) would take more than
`BLE_HS_ADV_MAX_SZ` bytes, yet against a stack that checks every packet against that
limit the pass does not fail: the hint travels in the scan response, both the
scan-response request and the advertise-start request are issued, and the controller
ends advertising. -/
theorem hint_is_not_in_advertising_payload :
    encodedSize (withHint (BleAdvertiser.advertisingFields sampleAdvertiser)
      (BleAdvertiser.responseFields sampleAdvertiser)) = 57 ∧
    BLE_HS_ADV_MAX_SZ = 31 ∧
    BleAdvertiser.startAdvertising sizeCheckingStack sampleAdvertiser =
      ⟨{ sampleAdvertiser with link := LinkState.advertising },
        [StackCall.ble_gap_adv_set_fields (BleAdvertiser.advertisingFields sampleAdvertiser),
          StackCall.ble_gap_adv_rsp_set_fields (BleAdvertiser.responseFields sampleAdvertiser),
          StackCall.ble_gap_adv_start 0 BLE_HS_FOREVER BleAdvertiser.advertisingParams],
        AdvOutcome.started⟩ := by
  decide

/-- C16, amended: when the stack answers `BLE_HS_EMSGSIZE` to the advertising fields
(flags, name, transmit power, appearance, role), the pass takes the message-too-long
exit having issued that one request only, and the controller state is unchanged. The
device address and the URI are not among those fields: they are part of the response
fields, and when the stack accepts the advertising fields and refuses the response
fields, the pass ends after these two requests, again with the state unchanged. -/
theorem startAdvertising_message_too_long (hs other : HostStack) (a : Advertiser)
    (hsize : hs.ble_gap_adv_set_fields (BleAdvertiser.advertisingFields a) = BLE_HS_EMSGSIZE)
    (hadv : other.ble_gap_adv_set_fields (BleAdvertiser.advertisingFields a) = 0)
    (hrsp : other.ble_gap_adv_rsp_set_fields (BleAdvertiser.responseFields a) ≠ 0) :
    BleAdvertiser.startAdvertising hs a =
      ⟨a, [StackCall.ble_gap_adv_set_fields (BleAdvertiser.advertisingFields a)],
        AdvOutcome.messageTooLong⟩ ∧
    (BleAdvertiser.advertisingFields a).device_addr_is_present = 0 ∧
    (BleAdvertiser.advertisingFields a).uri_len = 0 ∧
    (BleAdvertiser.responseFields a).device_addr = a.deviceAddress ∧
    (BleAdvertiser.responseFields a).uri = esp_uri ∧
    BleAdvertiser.startAdvertising other a =
      ⟨a, [StackCall.ble_gap_adv_set_fields (BleAdvertiser.advertisingFields a),
          StackCall.ble_gap_adv_rsp_set_fields (BleAdvertiser.responseFields a)],
        AdvOutcome.setResponseFailed
          (other.ble_gap_adv_rsp_set_fields (BleAdvertiser.responseFields a))⟩ := by
  refine ⟨?_, rfl, rfl, rfl, rfl, ?_⟩
  · simp [BleAdvertiser.startAdvertising, hsize, BLE_HS_EMSGSIZE]
  · simp [BleAdvertiser.startAdvertising, hadv, hrsp]

/-- C16, instance: a connected controller whose device name has 17 characters, against
the size-checking stack and against a stack that refuses every scan response. -/
theorem startAdvertising_message_too_long_witness :
    sizeCheckingStack.ble_gap_adv_set_fields (BleAdvertiser.advertisingFields
      longNameAdvertiser) = BLE_HS_EMSGSIZE ∧
    BleAdvertiser.startAdvertising sizeCheckingStack longNameAdvertiser =
      ⟨longNameAdvertiser,
        [StackCall.ble_gap_adv_set_fields (BleAdvertiser.advertisingFields longNameAdvertiser)],
        AdvOutcome.messageTooLong⟩ ∧
    (BleAdvertiser.startAdvertising sizeCheckingStack longNameAdvertiser).state.link =
      LinkState.connected :=
  have h := startAdvertising_message_too_long sizeCheckingStack
    { acceptingStack with ble_gap_adv_rsp_set_fields := fun _ => 4 } longNameAdvertiser
    (by decide) rfl (by decide)
  ⟨by decide, h.1, by rw [h.1]; rfl⟩

/-! ## Allocation failure, notification, moving -/

theorem createServiceDefinitions_failed_list :
    BleAdvertiser.createServiceDefinitions failingListEnv emptyWorld [sampleService] =
      ({ emptyWorld with mallocCalls := 2 },
        some [{ type := BLE_GATT_SVC_TYPE_PRIMARY, uuid := some zeroUuid,
                characteristics := none }, ble_gatt_svc_def.zero]) := by
  rw [BleAdvertiser.createServiceDefinitions_eq failingListEnv emptyWorld [sampleService] rfl]
  simp [runState, BleAdvertiser.createServiceDefinition,
    BleAdvertiser.createCharacteristicDefinitions, failingListEnv, emptyWorld, sampleService]

theorem createServiceDefinitions_failed_table :
    BleAdvertiser.createServiceDefinitions failingTableEnv emptyWorld [sampleService] =
      ({ emptyWorld with mallocCalls := 1 }, none) := by
  simp [BleAdvertiser.createServiceDefinitions, failingTableEnv, emptyWorld]

theorem uuidStringToUuid_1234 (result : ble_uuid_any_t) :
    uuidStringToUuid "1234" result = Ret.ok (ESP_FAIL, result) := by
  simp only [uuidStringToUuid]
  rw [if_neg (by decide)]
  simp

/-- C17, evaluation at the failing input: when the allocation of a characteristic list
fails, `createServiceDefinitions` still returns a table, whose service entry has a null
characteristic list; `init` hands that table to the stack and, the stack accepting it,
returns `true` with `initiated` set. When the allocation of the table itself fails,
`init` hands the null pointer to `ble_gatts_count_cfg`. The constructor of `BleService`
drops `ESP_ERR_NO_MEM` as well and leaves a service whose entry has a null list. -/
theorem init_ignores_allocation_failure :
    (sampleService.createGattCharacteristicDefinitions failingTableEnv 0).1 =
      ESP_ERR_NO_MEM ∧
    (∃ s, BleService.constructShared failingTableEnv 0 sampleEmptyService "1234"
        [sampleReadable] = Ret.ok s ∧ s.gattCharacteristicDefinitions = none ∧
      s.populateGattServiceDefinition.2.characteristics = none) ∧
    (BleAdvertiser.init failingListEnv acceptingInit sampleAdvertiser emptyWorld false
      "esp32" 0 0 [sampleService]).ret = Ret.ok true ∧
    (BleAdvertiser.init failingListEnv acceptingInit sampleAdvertiser emptyWorld false
      "esp32" 0 0 [sampleService]).initiated = true ∧
    (BleAdvertiser.init failingListEnv acceptingInit sampleAdvertiser emptyWorld false
      "esp32" 0 0 [sampleService]).handed.head? =
        some (some [{ type := BLE_GATT_SVC_TYPE_PRIMARY, uuid := some zeroUuid,
                      characteristics := none }, ble_gatt_svc_def.zero]) ∧
    (BleAdvertiser.init failingTableEnv acceptingInit sampleAdvertiser emptyWorld false
      "esp32" 0 0 [sampleService]).handed.head? = some none := by
  refine ⟨rfl,
    ⟨{ uuidDefinition := zeroUuid
       characteristics := [sampleReadable]
       gattCharacteristicDefinitions := none },
      by simp only [BleService.constructShared, uuidStringToUuid_1234]; rfl, rfl, rfl⟩, ?_⟩
  simp [BleAdvertiser.init, BleAdvertiser.gapInit, BleAdvertiser.gattSvcInit, acceptingInit,
    createServiceDefinitions_failed_list, createServiceDefinitions_failed_table, ESP_OK]

/-- C18, evaluation at the failing input: with two target devices, on connections 1 and
2, `notify` returns `ESP_OK` after a single request to the stack, for connection 1; no
delivery to connection 2 is attempted. -/
theorem notify_reaches_first_device_only :
    ∃ sent, BleCharacteristic.notify sampleEnv (sampleWorld sampleWriteOnly).mem
        (some { om_data := [], next := [] }) sampleWriteOnly
        [{ connectionHandle := 1 }, { connectionHandle := 2 }] [0x2a] =
        NotifyResult.returned ESP_OK sent ∧
      sent.map (fun n => n.conn_handle) = [1] ∧
      sent.map (fun n => n.om.map os_mbuf.payload) = [some [0x2a]] :=
  ⟨_, rfl, rfl, rfl⟩

/-- C19, counterexample: the readable sample declares no subscription support, and
`notify` on it returns `ESP_OK` and submits the value `0x2a` for connection 1 on the
handle 7. -/
theorem notify_without_subscription_support_sends :
    sampleReadable.supportsSubscription = false ∧
    ∃ sent, BleCharacteristic.notify sampleEnv (sampleWorld sampleReadable).mem
        (some { om_data := [], next := [] }) sampleReadable [{ connectionHandle := 1 }]
        [0x2a] = NotifyResult.returned ESP_OK sent ∧
      sent.map (fun n => (n.conn_handle, n.chr_val_handle)) = [(1, 7)] ∧
      sent.map (fun n => n.om.map os_mbuf.payload) = [some [0x2a]] :=
  ⟨rfl, _, rfl, rfl, rfl⟩

/-- C19, amended: for every characteristic, with or without subscription support, every
target list with a first device and every value, `notify` returns `ESP_OK` and submits a
notification for the first device on the handle held by the characteristic's cell. When
`os_msys_get_pkthdr` gave a buffer, the submitted buffer is that buffer after the append
of the value, so it holds the value after what the buffer held whenever the transport
appended it; when it gave none, the submitted buffer is null. The subscribe handler has
no influence on the result. -/
theorem notify_makes_no_subscription_check (env : Env) (mem : Nat → Nat) (m : os_mbuf)
    (pkthdr : Option os_mbuf) (c : BleCharacteristic) (first : BleDevice)
    (others : List BleDevice) (data : List Nat) (onSubscribe : Option (BleDevice → Unit)) :
    (∃ sent, BleCharacteristic.notify env mem (some m) c (first :: others) data =
        NotifyResult.returned ESP_OK sent ∧
      ∃ n ∈ sent, n.conn_handle = first.connectionHandle ∧
        n.chr_val_handle = mem c.characteristicHandle ∧
        n.om = some (env.os_mbuf_append m data).2 ∧
        ((env.os_mbuf_append m data).2.payload = m.payload ++ data →
          n.om.map os_mbuf.payload = some (m.payload ++ data))) ∧
    (∃ sent, BleCharacteristic.notify env mem none c (first :: others) data =
        NotifyResult.returned ESP_OK sent ∧
      ∃ n ∈ sent, n.conn_handle = first.connectionHandle ∧
        n.chr_val_handle = mem c.characteristicHandle ∧ n.om = none) ∧
    BleCharacteristic.notify env mem pkthdr { c with onSubscribe := onSubscribe }
        (first :: others) data =
      BleCharacteristic.notify env mem pkthdr c (first :: others) data :=
  ⟨⟨_, rfl, _, List.mem_cons_self _ _, rfl, rfl, rfl, fun h => by simp [h]⟩,
    ⟨_, rfl, _, List.mem_cons_self _ _, rfl, rfl, rfl⟩, rfl⟩

/-- C20, evaluation at the failing input: the public constructor, given a read handler,
yields a characteristic with `read` set; the object moved from it has the handlers but
keeps the `read` flag and the handle pointer it had before the move constructor ran, so
its compiled flags lack `READ`, and the constructor of `BleService` that moves its
elements compiles the entry without `READ` too. -/
theorem move_drops_flags_and_handle :
    ∃ c, BleCharacteristic.construct blankWithHandle "00112233-4455-6677-8899-aabbccddeeff"
        none (some (fun _ => [0x01, 0x02])) none false = Ret.ok c ∧
      c.read = true ∧ c.characteristicHandle = 200 ∧
      (BleCharacteristic.moveConstruct blankCharacteristic c).onRead.isSome = true ∧
      (BleCharacteristic.moveConstruct blankCharacteristic c).read = false ∧
      (BleCharacteristic.moveConstruct blankCharacteristic c).characteristicHandle = 0 ∧
      hasFlag c.populateGattCharacteristicDefinition.2.flags BLE_GATT_CHR_F_READ = true ∧
      hasFlag (BleCharacteristic.moveConstruct blankCharacteristic
        c).populateGattCharacteristicDefinition.2.flags BLE_GATT_CHR_F_READ = false ∧
      ∃ s defs d, BleService.constructMoved sampleEnv 0 sampleEmptyService
          blankCharacteristic "1234" [c] = Ret.ok s ∧
        s.gattCharacteristicDefinitions = some defs ∧ defs[0]? = some d ∧
        hasFlag d.flags BLE_GATT_CHR_F_READ = false := by
  obtain ⟨u, hu, -, -⟩ := uuidStringToUuid_value "00112233-4455-6677-8899-aabbccddeeff"
    zeroUuid (by decide) (by decide)
  refine
    ⟨{ uuidDefinition := u
       onWrite := none
       onRead := some (fun _ => [0x01, 0x02])
       onSubscribe := none
       acknowledgeWrites := false
       read := true
       write := false
       characteristicHandle := 200 }, ?_, ?_⟩
  · simp only [BleCharacteristic.construct, blankWithHandle, hu]
    rfl
  · have hflags : ∀ c : BleCharacteristic, c.read = false → c.write = false →
        hasFlag c.populateGattCharacteristicDefinition.2.flags BLE_GATT_CHR_F_READ = false := by
      intro c hr hw
      simp only [BleCharacteristic.populateGattCharacteristicDefinition, hr, hw,
        Bool.false_eq_true, if_false]
      decide
    have hflags1 : ∀ c : BleCharacteristic, c.read = true → c.write = false →
        hasFlag c.populateGattCharacteristicDefinition.2.flags BLE_GATT_CHR_F_READ = true := by
      intro c hr hw
      simp only [BleCharacteristic.populateGattCharacteristicDefinition, hr, hw,
        Bool.false_eq_true, if_false, if_true]
      decide
    refine ⟨rfl, rfl, rfl, rfl, rfl, hflags1 _ rfl rfl, hflags _ rfl rfl, ?_⟩
    simp only [BleService.constructMoved, uuidStringToUuid_1234]
    rw [BleService.createGattCharacteristicDefinitions_eq sampleEnv 0 _ rfl]
    exact ⟨_, _, _, rfl, rfl, rfl, hflags _ rfl rfl⟩

end Ble
